import Mathlib

/-!
Verification of the ComplianceSync Python backend
(`python_backend_example/app.py`, `compliance_evaluator.py`,
`compliance_evaluator_perplexity.py`) against its natural-language
specification.  The Python code is shallowly embedded: Python values that
flow through the handlers are modelled by `PyVal`, Python dicts by
association lists, exceptions by `Option`/`Except`, and the
regular-expression scans of the response extractor by explicit
character-list scanners that follow the semantics of the concrete
patterns appearing in the source.
-/

set_option maxHeartbeats 1000000

namespace ComplianceSync

/-! ## Character / string scanning utilities

All string processing is done on `List Char` (via `String.data`) so that
every definition reduces by plain structural computation. -/

/-- Python's `\s` character class (`re` module, ASCII part):
space, tab, newline, carriage return, form feed, vertical tab. -/
def isPySpace (c : Char) : Bool :=
  c = ' ' || c = '\t' || c = '\n' || c = '\r' || c = '\x0b' || c = '\x0c'

/-- Case-insensitive character equality (Python `re.IGNORECASE`). -/
def lcEq (a b : Char) : Bool := a.toLower == b.toLower

/-- Case-sensitive: is `p` a prefix of `s`? -/
def isPrefixL : List Char → List Char → Bool
  | [], _ => true
  | _ :: _, [] => false
  | p :: ps, c :: cs => (p == c) && isPrefixL ps cs

/-- Case-insensitive: is `p` a prefix of `s`? -/
def isPrefixCIL : List Char → List Char → Bool
  | [], _ => true
  | _ :: _, [] => false
  | p :: ps, c :: cs => lcEq p c && isPrefixCIL ps cs

/-- Case-sensitive substring test (Python `pat in s`). -/
def containsL (pat : List Char) : List Char → Bool
  | [] => pat.isEmpty
  | s@(_ :: r) => isPrefixL pat s || containsL pat r

/-- Case-insensitive substring test (models `re.search` of a literal
pattern compiled with `re.IGNORECASE`). -/
def containsCIL (pat : List Char) : List Char → Bool
  | [] => pat.isEmpty
  | s@(_ :: r) => isPrefixCIL pat s || containsCIL pat r

/-- Drop a case-sensitive prefix, returning the rest on success. -/
def dropPrefixL : List Char → List Char → Option (List Char)
  | [], s => some s
  | _ :: _, [] => none
  | p :: ps, c :: cs => if p == c then dropPrefixL ps cs else none

/-- Drop a case-insensitive prefix, returning the rest on success. -/
def dropPrefixCIL : List Char → List Char → Option (List Char)
  | [], s => some s
  | _ :: _, [] => none
  | p :: ps, c :: cs => if lcEq p c then dropPrefixCIL ps cs else none

/-- Case-sensitive suffix test. -/
def endsWithL (pat s : List Char) : Bool :=
  isPrefixL pat.reverse s.reverse

/-- Python `str.strip()`: remove leading and trailing whitespace. -/
def pyStrip (s : List Char) : List Char :=
  ((s.dropWhile isPySpace).reverse.dropWhile isPySpace).reverse

/-- Python `str.lower()` (ASCII part, which is all that the embedded
tables and file names use). -/
def pyLowerL (s : List Char) : List Char := s.map Char.toLower

/-- Python `str.split(sep)` for a one-character separator: keeps empty
pieces, never drops separators. -/
def chSplit (sep : Char) : List Char → List (List Char)
  | [] => [[]]
  | c :: r =>
    if c = sep then [] :: chSplit sep r
    else match chSplit sep r with
      | [] => [[c]]
      | p :: ps => (c :: p) :: ps

/-- String wrapper for `containsL`. -/
def strContains (s pat : String) : Bool := containsL pat.data s.data

/-- String wrapper for `containsCIL`. -/
def strContainsCI (s pat : String) : Bool := containsCIL pat.data s.data

/-! ## PyVal: JSON-like Python values -/

/-- The Python values handled by the backend: `None`, strings, integers,
lists, dicts (modelled as association lists with the textual keys used in
the code), and byte strings (opaque payloads produced by base64
decoding). -/
inductive PyVal where
  | pynone
  | str (s : String)
  | int (n : Int)
  | list (l : List PyVal)
  | dict (l : List (String × PyVal))
  | bytes (b : List Nat)

/-- First-match association-list lookup: the model of a Python dict read
(dict keys are unique in every value the backend builds). -/
def lookupAssoc : List (String × PyVal) → String → Option PyVal
  | [], _ => none
  | (k, v) :: r, key => if k = key then some v else lookupAssoc r key

/-- Python truthiness for the embedded values. -/
def pyFalsy : PyVal → Bool
  | .pynone => true
  | .str s => s.data.isEmpty
  | .int n => n == 0
  | .list l => l.isEmpty
  | .dict l => l.isEmpty
  | .bytes b => b.isEmpty

/-- Python `len()`: defined for strings, lists, dicts and bytes; a
`TypeError` (modelled as `none`) otherwise. -/
def pyLen : PyVal → Option Nat
  | .str s => some s.data.length
  | .list l => some l.length
  | .dict l => some l.length
  | .bytes b => some b.length
  | _ => none

/-- Python iteration (`for x in v`): lists yield elements, strings yield
one-character strings, dicts yield their keys; anything else raises. -/
def pyElems : PyVal → Option (List PyVal)
  | .list l => some l
  | .str s => some (s.data.map (fun c => PyVal.str (String.mk [c])))
  | .dict l => some (l.map (fun kv => PyVal.str kv.1))
  | _ => none

-- Python `repr(v)` for the embedded values (containers render their
-- elements with `repr`, as Python does).
mutual

def pyReprPy : PyVal → String
  | .pynone => "None"
  | .str s => "'" ++ s ++ "'"
  | .int n => toString n
  | .list l => "[" ++ pyReprSeq l ++ "]"
  | .dict l => "\x7b" ++ pyReprDictSeq l ++ "\x7d"
  | .bytes _ => "<bytes>"

def pyReprSeq : List PyVal → String
  | [] => ""
  | [v] => pyReprPy v
  | v :: r => pyReprPy v ++ ", " ++ pyReprSeq r

def pyReprDictSeq : List (String × PyVal) → String
  | [] => ""
  | [(k, v)] => "'" ++ k ++ "': " ++ pyReprPy v
  | (k, v) :: r => "'" ++ k ++ "': " ++ pyReprPy v ++ ", " ++ pyReprDictSeq r

end

/-- Python `str(v)` for the embedded values: like `repr` except that a
top-level string is rendered unquoted. -/
def pyStrPy : PyVal → String
  | .pynone => "None"
  | .str s => s
  | .int n => toString n
  | .list l => "[" ++ pyReprSeq l ++ "]"
  | .dict l => "\x7b" ++ pyReprDictSeq l ++ "\x7d"
  | .bytes _ => "<bytes>"

/-! ## app.py: jurisdiction tables and `format_compliance_response` -/

namespace AppPy

/-- `app.py` `get_jurisdiction_name`: 15-entry table, defaulting to
`jurisdiction_id.upper()`. -/
def get_jurisdiction_name (jurisdiction_id : String) : String :=
  let jurisdictions : List (String × String) :=
    [("us", "United States"), ("eu", "European Union"), ("uk", "United Kingdom"),
     ("sg", "Singapore"), ("au", "Australia"), ("ca", "Canada"), ("de", "Germany"),
     ("fr", "France"), ("jp", "Japan"), ("cn", "China"), ("in", "India"),
     ("br", "Brazil"), ("za", "South Africa"), ("ae", "United Arab Emirates"),
     ("ch", "Switzerland")]
  match jurisdictions.lookup jurisdiction_id with
  | some n => n
  | none => jurisdiction_id.toUpper

/-- `app.py` `get_jurisdiction_flag`: flag emoji table, defaulting to a
white flag. -/
def get_jurisdiction_flag (jurisdiction_id : String) : String :=
  let flags : List (String × String) :=
    [("us", "🇺🇸"), ("eu", "🇪🇺"), ("uk", "🇬🇧"), ("sg", "🇸🇬"), ("au", "🇦🇺"),
     ("ca", "🇨🇦"), ("de", "🇩🇪"), ("fr", "🇫🇷"), ("jp", "🇯🇵"), ("cn", "🇨🇳"),
     ("in", "🇮🇳"), ("br", "🇧🇷"), ("za", "🇿🇦"), ("ae", "🇦🇪"), ("ch", "🇨🇭")]
  match flags.lookup jurisdiction_id with
  | some f => f
  | none => "🏳️"

/-- The JSON response shape built by `format_compliance_response`. -/
structure Report where
  jurisdictionId : PyVal
  jurisdictionName : String
  flag : String
  complianceScore : PyVal
  status : PyVal
  riskLevel : PyVal
  requirementsTotal : Nat
  requirementsMet : Nat
  requirementsList : PyVal

/-- Is `req.get('status') == 'met'` for an element of the requirements
list?  (Used by the generator expression in `format_compliance_response`;
a non-dict element raises, which the caller models separately.) -/
def reqIsMet (r : PyVal) : Bool :=
  match r with
  | .dict rl =>
    match lookupAssoc rl "status" with
    | some (.str s) => s == "met"
    | _ => false
  | _ => false

/-- `sum(1 for req in requirements_list if req.get('status') == 'met')`:
fails (AttributeError) on a non-dict element. -/
def countMet : List PyVal → Option Nat
  | [] => some 0
  | (.dict rl) :: rest =>
    (countMet rest).map (fun n =>
      (if (match lookupAssoc rl "status" with
           | some (.str s) => s == "met"
           | _ => false) then 1 else 0) + n)
  | _ => none

/-- `app.py` `format_compliance_response`: formats the parsed Perplexity
JSON into the API response.  Returns `none` when the Python function
returns `None` (falsy input) or swallows an exception in its
`try/except`. -/
def format_compliance_response (compliance_data jurisdiction : PyVal) :
    Option Report :=
  if pyFalsy compliance_data then none
  else match compliance_data with
    | .dict l =>
      match pyLen ((lookupAssoc l "requirementsList").getD (.list [])),
            pyElems ((lookupAssoc l "requirementsList").getD (.list [])) with
      | some total, some elems =>
        match countMet elems with
        | some met =>
          match jurisdiction with
          | .str j =>
            some { jurisdictionId := jurisdiction,
                   jurisdictionName := get_jurisdiction_name j,
                   flag := get_jurisdiction_flag j,
                   complianceScore := (lookupAssoc l "complianceScore").getD (.int 0),
                   status := (lookupAssoc l "status").getD (.str "non-compliant"),
                   riskLevel := (lookupAssoc l "riskLevel").getD (.str "high"),
                   requirementsTotal := total,
                   requirementsMet := met,
                   requirementsList := (lookupAssoc l "requirementsList").getD (.list []) }
          | _ => none
        | none => none
      | _, _ => none
    | _ => none

end AppPy

/-! ## compliance_evaluator.py: jurisdiction table and URL issuer lookup -/

namespace EvalPy

/-- `compliance_evaluator.py` `get_jurisdiction_name`: 8-entry table on
the lower-cased id, defaulting to the id unchanged. -/
def get_jurisdiction_name (jurisdiction_id : String) : String :=
  let jurisdiction_names : List (String × String) :=
    [("us", "United States"), ("uk", "United Kingdom"), ("eu", "European Union"),
     ("ca", "Canada"), ("au", "Australia"), ("sg", "Singapore"),
     ("hk", "Hong Kong"), ("in", "India")]
  match jurisdiction_names.lookup (String.mk (pyLowerL jurisdiction_id.data)) with
  | some n => n
  | none => jurisdiction_id

/-- The substring-keyed government-domain table of
`get_issuer_from_url`, in source (dict insertion) order. -/
def issuer_map : List (String × String) :=
  [("sec.gov", "Securities and Exchange Commission"),
   ("consumerfinance.gov", "Consumer Financial Protection Bureau"),
   ("fdic.gov", "Federal Deposit Insurance Corporation"),
   ("fca.org.uk", "Financial Conduct Authority"),
   ("fca.gov.uk", "Financial Conduct Authority"),
   ("bankofengland.co.uk", "Bank of England"),
   ("gov.uk", "UK Government"),
   ("europa.eu", "European Union"),
   ("esma.europa.eu", "European Securities and Markets Authority"),
   ("ec.europa.eu", "European Commission"),
   ("eba.europa.eu", "European Banking Authority"),
   ("mas.gov.sg", "Monetary Authority of Singapore"),
   ("acra.gov.sg", "Accounting and Corporate Regulatory Authority"),
   ("pdpc.gov.sg", "Personal Data Protection Commission"),
   ("asic.gov.au", "Australian Securities and Investments Commission"),
   ("apra.gov.au", "Australian Prudential Regulation Authority"),
   ("oaic.gov.au", "Office of the Australian Information Commissioner")]

/-- First table entry whose key occurs as a substring of the domain
(Python `for key, value in issuer_map.items(): if key in domain`). -/
def issuerMatch (domain : List Char) : List (String × String) → Option String
  | [] => none
  | (k, v) :: rest =>
    if containsL k.data domain then some v else issuerMatch domain rest

/-- `compliance_evaluator.py` `get_issuer_from_url`: split the URL on
slashes and take element 2 as the domain (an IndexError is swallowed and
yields "Unknown Issuer"), look the domain up in the substring-keyed
table, special-case `.gov` domains, else return the bare domain. -/
def get_issuer_from_url (url : String) : String :=
  match (chSplit '/' url.data).get? 2 with
  | none => "Unknown Issuer"
  | some domain =>
    match issuerMatch domain issuer_map with
    | some v => v
    | none =>
      if containsL ".gov".data domain then
        if (chSplit '.' domain).length ≥ 3 then
          String.mk (((chSplit '.' domain).headD []).map Char.toUpper) ++
            " - Government Agency"
        else "Government Agency"
      else String.mk domain

/-! ### The requirements extractor (`extract_requirements`)

The Python code drives everything with `re`; each concrete pattern is
embedded as a character scanner with the same semantics (leftmost match,
greedy/lazy quantifiers, `MULTILINE`/`DOTALL`/`IGNORECASE` flags as
compiled). -/

/-- The ordered alternation of the requirements-section header pattern
`## (?:Requirements|Regulations?|Compliance Requirements?|Regulatory
Requirements?|Key Regulatory Considerations)`, with each greedy optional
`s?` expanded into with-`s`-first alternatives. -/
def reqHeaderAlts : List String :=
  ["Requirements", "Regulations", "Regulation", "Compliance Requirements",
   "Compliance Requirement", "Regulatory Requirements", "Regulatory Requirement",
   "Key Regulatory Considerations"]

/-- Try an ordered list of case-insensitive literal alternatives at the
head of `s`, returning the rest after the first that matches. -/
def tryAltsCI : List String → List Char → Option (List Char)
  | [], _ => none
  | a :: rest, s =>
    match dropPrefixCIL a.data s with
    | some r => some r
    | none => tryAltsCI rest s

/-- Match `## <header-alternative>` at the head of `s`. -/
def matchReqHeader (s : List Char) : Option (List Char) :=
  match dropPrefixL "## ".data s with
  | some r => tryAltsCI reqHeaderAlts r
  | none => none

/-- The lookahead `(?=\n## |\n# |$)` of the section pattern: `$` without
`MULTILINE` matches at the end of the string or just before a final
newline. -/
def sectionStop (s : List Char) : Bool :=
  isPrefixL "\n## ".data s || isPrefixL "\n# ".data s || s.isEmpty || s == ['\n']

/-- The lazy group `(.*?)` (with `DOTALL`) up to the section lookahead:
the shortest prefix whose following position satisfies the lookahead. -/
def lazyGrab : List Char → List Char
  | [] => []
  | s@(c :: r) => if sectionStop s then [] else c :: lazyGrab r

/-- `re.search` of the requirements-section pattern: scan left to right
for the header, then consume `\s*` greedily and capture lazily up to the
lookahead.  Returns the captured group. -/
def reqSecGo : List Char → Option (List Char)
  | [] => none
  | s@(_ :: r) =>
    match matchReqHeader s with
    | some afterKw => some (lazyGrab (afterKw.dropWhile isPySpace))
    | none => reqSecGo r

/-- The bullet token `(?:\d+\.|\*|\-)` of the item pattern (alternation
order as in the source; `\d+` greedy). -/
def bulletTok (s : List Char) : Option (List Char) :=
  if (s.takeWhile Char.isDigit).isEmpty then
    match s with
    | '*' :: r => some r
    | '-' :: r => some r
    | _ => none
  else
    match s.dropWhile Char.isDigit with
    | '.' :: r => some r
    | _ => none

/-- One match of `^(?:\d+\.|\*|\-)\s*(.*?)$` (`MULTILINE`, at a
line-start position): token, then greedy `\s*` (which may swallow
newlines), then the lazy group up to the next `$` position (before a
newline or at the end).  Returns the group and the rest of the input
from the match end. -/
def matchBulletAt (s : List Char) : Option (List Char × List Char) :=
  match bulletTok s with
  | none => none
  | some afterTok =>
    some ((afterTok.dropWhile isPySpace).takeWhile (fun c => c ≠ '\n'),
          (afterTok.dropWhile isPySpace).dropWhile (fun c => c ≠ '\n'))

theorem length_dropWhileCh_le (p : Char → Bool) (l : List Char) :
    (l.dropWhile p).length ≤ l.length := by
  induction l with
  | nil => simp
  | cons a r ih =>
    by_cases h : p a
    · simp only [List.dropWhile_cons, h, if_true]
      exact Nat.le_succ_of_le ih
    · simp [List.dropWhile_cons, h]

theorem bulletTok_length {s r : List Char} (h : bulletTok s = some r) :
    r.length < s.length := by
  unfold bulletTok at h
  split at h
  · split at h
    · injection h with h; subst h; simp
    · injection h with h; subst h; simp
    · exact Option.noConfusion h
  · revert h
    split
    case _ heq =>
      intro h
      injection h with h
      subst h
      have hd := length_dropWhileCh_le Char.isDigit s
      rw [heq] at hd
      simp at hd
      omega
    · intro h; exact Option.noConfusion h

theorem matchBulletAt_length {s g rest : List Char}
    (h : matchBulletAt s = some (g, rest)) : rest.length < s.length := by
  unfold matchBulletAt at h
  revert h
  split
  · intro h; exact absurd h (by simp)
  case _ afterTok heq =>
    intro h
    injection h with h
    have h2 : rest = (afterTok.dropWhile isPySpace).dropWhile (fun c => c ≠ '\n') := by
      have := congrArg Prod.snd h
      simpa using this.symm
    have hlt : afterTok.length < s.length := bulletTok_length heq
    calc rest.length
        ≤ (afterTok.dropWhile isPySpace).length := by
          rw [h2]; exact length_dropWhileCh_le _ _
      _ ≤ afterTok.length := length_dropWhileCh_le _ _
      _ < s.length := hlt

/-- Fuel-indexed `re.findall` of the bullet-item pattern over the
section text: matches can start only at line-start positions; each step
consumes at least one character, so `s.length + 1` fuel always suffices
(`bulletsGoF_congr`).  Returns the captured groups. -/
def bulletsGoF : Nat → List Char → Bool → List String
  | 0, _, _ => []
  | _ + 1, [], _ => []
  | fuel + 1, c :: r, atStart =>
    if atStart then
      match matchBulletAt (c :: r) with
      | some (g, rest) => String.mk g :: bulletsGoF fuel rest false
      | none => bulletsGoF fuel r (c == '\n')
    else bulletsGoF fuel r (c == '\n')

/-- `re.findall(r'^(?:\d+\.|\*|\-)\s*(.*?)$', req_text, re.MULTILINE)`. -/
def bulletsGo (s : List Char) (atStart : Bool) : List String :=
  bulletsGoF (s.length + 1) s atStart

/-- The fuel of `bulletsGoF` is irrelevant once it exceeds the input
length: the scan is the unbounded loop of the regular-expression
engine. -/
theorem bulletsGoF_congr : ∀ (n : Nat) (s : List Char), s.length ≤ n →
    ∀ (f1 f2 : Nat) (b : Bool), s.length < f1 → s.length < f2 →
    bulletsGoF f1 s b = bulletsGoF f2 s b := by
  intro n
  induction n with
  | zero =>
    intro s hs f1 f2 b h1 h2
    have hnil : s = [] := List.length_eq_zero.mp (Nat.le_zero.mp hs)
    subst hnil
    cases f1 with
    | zero => omega
    | succ f1 =>
      cases f2 with
      | zero => omega
      | succ f2 => rfl
  | succ n ih =>
    intro s hs f1 f2 b h1 h2
    cases s with
    | nil =>
      cases f1 with
      | zero => omega
      | succ f1 =>
        cases f2 with
        | zero => omega
        | succ f2 => rfl
    | cons c r =>
      cases f1 with
      | zero => omega
      | succ f1 =>
        cases f2 with
        | zero => omega
        | succ f2 =>
          simp only [List.length_cons] at h1 h2 hs
          simp only [bulletsGoF]
          cases b with
          | false =>
            exact ih r (by omega) f1 f2 (c == '\n') (by omega) (by omega)
          | true =>
            simp only [if_true]
            cases hm : matchBulletAt (c :: r) with
            | none => exact ih r (by omega) f1 f2 (c == '\n') (by omega) (by omega)
            | some p =>
              obtain ⟨g, rest⟩ := p
              have hrest : rest.length < r.length + 1 := matchBulletAt_length hm
              show String.mk g :: bulletsGoF f1 rest false =
                String.mk g :: bulletsGoF f2 rest false
              rw [ih rest (by omega) f1 (rest.length + 1) false (by omega) (by omega),
                  ih rest (by omega) f2 (rest.length + 1) false (by omega) (by omega)]

-- `re.split(r'(?<=[.!?])\s+', text)`: split at each maximal whitespace
-- run immediately preceded by `.`, `!` or `?`.  `prev` is the character
-- before the current position; `acc` the current piece.
mutual

def sentGoA : List Char → Char → List Char → List String
  | [], _, acc => [String.mk acc]
  | c :: r, prev, acc =>
    if isPySpace c && (prev = '.' || prev = '!' || prev = '?') then
      String.mk acc :: sentSkip r
    else sentGoA r c (acc ++ [c])

def sentSkip : List Char → List String
  | [] => [""]
  | c :: r =>
    if isPySpace c then sentSkip r
    else sentGoA r c [c]

end

/-- Python `re.split(r'(?<=[.!?])\s+', text)`. -/
def pySentSplit (s : List Char) : List String := sentGoA s 'A' []

/-- The ordered keyword alternation of the synthetic-requirement scan
`(?:under|according to|compliant with|compliance with|regulated by)`. -/
def mentionKws : List String :=
  ["under", "according to", "compliant with", "compliance with", "regulated by"]

/-- The lazy group `([^.]+?)` followed by `(?:\.|$)`: collect characters
(never `.`) until the earliest terminator, which is a literal dot
(consumed) or a `$` position (end, or just before a final newline). -/
def grabLazyGo (acc : List Char) : List Char → List Char × List Char
  | [] => (acc, [])
  | d :: r =>
    if d == '.' then (acc, r)
    else if r.isEmpty && (d == '\n') then (acc, ['\n'])
    else grabLazyGo (acc ++ [d]) r

/-- After a matched keyword: `\s+` (greedy, at least one) then the lazy
dot-free group.  Greedy backtracking: if the first non-space character
is a dot (or the string ends), the whitespace run gives back one
character to the group, which then terminates immediately. -/
def mentionTail (afterKw : List Char) : Option (List Char × List Char) :=
  if (afterKw.takeWhile isPySpace).isEmpty then none
  else
    match afterKw.dropWhile isPySpace with
    | [] =>
      if (afterKw.takeWhile isPySpace).length ≥ 2 then
        some ([(afterKw.takeWhile isPySpace).getLastD ' '], [])
      else none
    | c :: rest =>
      if c == '.' then
        if (afterKw.takeWhile isPySpace).length ≥ 2 then
          some ([(afterKw.takeWhile isPySpace).getLastD ' '], rest)
        else none
      else some (grabLazyGo [c] rest)

theorem grabLazyGo_length (acc : List Char) (s : List Char) :
    (grabLazyGo acc s).2.length ≤ s.length := by
  induction s generalizing acc with
  | nil => simp [grabLazyGo]
  | cons d r ih =>
    unfold grabLazyGo
    split
    · simp
    · split
      · simp
      · exact le_trans (ih _) (Nat.le_succ _)

theorem dropPrefixCIL_length {p s r : List Char}
    (h : dropPrefixCIL p s = some r) : r.length + p.length = s.length := by
  induction p generalizing s with
  | nil => simp [dropPrefixCIL] at h; subst h; simp
  | cons a ps ih =>
    cases s with
    | nil => simp [dropPrefixCIL] at h
    | cons c cs =>
      unfold dropPrefixCIL at h
      split at h
      · have := ih h
        simp [List.length_cons]
        omega
      · exact absurd h (by simp)

theorem tryAltsCI_length {alts : List String} {s r : List Char}
    (halts : ∀ a ∈ alts, a.data ≠ [])
    (h : tryAltsCI alts s = some r) : r.length < s.length := by
  induction alts with
  | nil => simp [tryAltsCI] at h
  | cons a rest ih =>
    unfold tryAltsCI at h
    revert h
    split
    case _ heq =>
      intro h
      injection h with h
      subst h
      have hlen := dropPrefixCIL_length heq
      have hne : a.data ≠ [] := halts a (List.mem_cons_self a rest)
      have : 0 < a.data.length := List.length_pos.mpr hne
      omega
    · intro h
      exact ih (fun x hx => halts x (List.mem_cons_of_mem _ hx)) h

theorem mentionTail_length {a g rest : List Char}
    (h : mentionTail a = some (g, rest)) : rest.length ≤ a.length := by
  unfold mentionTail at h
  split at h
  · exact Option.noConfusion h
  · revert h
    split
    · split
      · intro h
        injection h with h
        have h2 := congrArg Prod.snd h
        simp only at h2
        rw [← h2]
        simp
      · intro h; exact Option.noConfusion h
    case _ c rest2 heq =>
      split
      · split
        · intro h
          injection h with h
          have h2 := congrArg Prod.snd h
          simp only at h2
          rw [← h2]
          have hd := length_dropWhileCh_le isPySpace a
          rw [heq] at hd
          simp at hd
          omega
        · intro h; exact Option.noConfusion h
      · intro h
        injection h with h
        have h2 := congrArg Prod.snd h
        simp only at h2
        rw [← h2]
        have hg := grabLazyGo_length [c] rest2
        have hd := length_dropWhileCh_le isPySpace a
        rw [heq] at hd
        simp at hd
        omega

theorem mentionKws_ne_nil : ∀ a ∈ mentionKws, a.data ≠ [] := by decide

/-- Fuel-indexed `re.findall` of the regulation-mention pattern over the
whole document, scanning left to right and resuming after each match;
each step consumes at least one character, so `s.length + 1` fuel
always suffices (`regMentionsGoF_congr`). -/
def regMentionsGoF : Nat → List Char → List String
  | 0, _ => []
  | _ + 1, [] => []
  | fuel + 1, c :: r =>
    match tryAltsCI mentionKws (c :: r) with
    | some afterKw =>
      match mentionTail afterKw with
      | some (g, rest) => String.mk g :: regMentionsGoF fuel rest
      | none => regMentionsGoF fuel r
    | none => regMentionsGoF fuel r

/-- `re.findall` of
`(?:under|according to|compliant with|compliance with|regulated by)\s+([^.]+?)(?:\.|$)`
with `re.IGNORECASE`, returning the captured groups. -/
def regMentionsGo (s : List Char) : List String :=
  regMentionsGoF (s.length + 1) s

/-- The fuel of `regMentionsGoF` is irrelevant once it exceeds the input
length. -/
theorem regMentionsGoF_congr : ∀ (n : Nat) (s : List Char), s.length ≤ n →
    ∀ (f1 f2 : Nat), s.length < f1 → s.length < f2 →
    regMentionsGoF f1 s = regMentionsGoF f2 s := by
  intro n
  induction n with
  | zero =>
    intro s hs f1 f2 h1 h2
    have hnil : s = [] := List.length_eq_zero.mp (Nat.le_zero.mp hs)
    subst hnil
    cases f1 with
    | zero => omega
    | succ f1 =>
      cases f2 with
      | zero => omega
      | succ f2 => rfl
  | succ n ih =>
    intro s hs f1 f2 h1 h2
    cases s with
    | nil =>
      cases f1 with
      | zero => omega
      | succ f1 =>
        cases f2 with
        | zero => omega
        | succ f2 => rfl
    | cons c r =>
      cases f1 with
      | zero => omega
      | succ f1 =>
        cases f2 with
        | zero => omega
        | succ f2 =>
          simp only [List.length_cons] at h1 h2 hs
          simp only [regMentionsGoF]
          cases hk : tryAltsCI mentionKws (c :: r) with
          | none =>
            show regMentionsGoF f1 r = regMentionsGoF f2 r
            exact ih r (by omega) f1 f2 (by omega) (by omega)
          | some afterKw =>
            show (match mentionTail afterKw with
                  | some (g, rest) => String.mk g :: regMentionsGoF f1 rest
                  | none => regMentionsGoF f1 r) =
                 (match mentionTail afterKw with
                  | some (g, rest) => String.mk g :: regMentionsGoF f2 rest
                  | none => regMentionsGoF f2 r)
            cases hm : mentionTail afterKw with
            | none =>
              exact ih r (by omega) f1 f2 (by omega) (by omega)
            | some p =>
              obtain ⟨g, rest⟩ := p
              have ha := tryAltsCI_length mentionKws_ne_nil hk
              have hb := mentionTail_length hm
              simp only [List.length_cons] at ha
              show String.mk g :: regMentionsGoF f1 rest =
                String.mk g :: regMentionsGoF f2 rest
              rw [ih rest (by omega) f1 (rest.length + 1) (by omega) (by omega),
                  ih rest (by omega) f2 (rest.length + 1) (by omega) (by omega)]

/-- A regulatory reference attached to a requirement. -/
structure RegRef where
  id : String
  title : String
  description : String
  url : String
  documentType : String
  issuer : String
deriving DecidableEq, Repr

/-- One extracted requirement. -/
structure Requirement where
  id : String
  title : String
  description : String
  category : String
  status : String
  risk : String
  regulatoryReferences : Option (List RegRef)
deriving DecidableEq, Repr

/-- `item[:50] + "..." if len(item) > 50 else item`. -/
def truncTitle (item : String) : String :=
  if item.data.length > 50 then String.mk (item.data.take 50) ++ "..." else item

/-- `re.search(r'\[([^\]]+)\]\((https?://[^\)]+)\)', item)`: leftmost
Markdown link with an http(s) URL, returning (text, url). -/
def linkSearch : List Char → Option (String × String)
  | [] => none
  | c :: r =>
    if c == '[' then
      match linkAt r with
      | some tu => some tu
      | none => linkSearch r
    else linkSearch r
where
  /-- Try to complete the link pattern right after an opening bracket. -/
  linkAt (r : List Char) : Option (String × String) :=
    if (r.takeWhile (fun c => c ≠ ']')).isEmpty then none
    else
      match r.dropWhile (fun c => c ≠ ']') with
      | ']' :: '(' :: r3 =>
        match dropPrefixL "http".data r3 with
        | some r4 =>
          match dropPrefixL "://".data (if r4.headD ' ' == 's' then r4.tail else r4) with
          | some r6 =>
            if (r6.takeWhile (fun c => c ≠ ')')).isEmpty then none
            else
              match r6.dropWhile (fun c => c ≠ ')') with
              | ')' :: _ =>
                some (String.mk (r.takeWhile (fun c => c ≠ ']')),
                  (if r4.headD ' ' == 's' then "https://" else "http://") ++
                    String.mk (r6.takeWhile (fun c => c ≠ ')')))
              | _ => none
          | none => none
        | none => none
      | _ => none

/-- The status keyword test
`re.search(r'compliant|in compliance|meets? requirements?|fully implemented', item, re.IGNORECASE)`:
the optional `s?` tails never affect match existence, so the search is a
disjunction of case-insensitive substring tests. -/
def metKw (it : List Char) : Bool :=
  containsCIL "compliant".data it || containsCIL "in compliance".data it ||
    containsCIL "meet requirement".data it || containsCIL "meets requirement".data it ||
    containsCIL "fully implemented".data it

/-- `re.search(r'partially|in progress|some compliance|partially implemented', item, re.IGNORECASE)`. -/
def partialKw (it : List Char) : Bool :=
  containsCIL "partially".data it || containsCIL "in progress".data it ||
    containsCIL "some compliance".data it || containsCIL "partially implemented".data it

/-- Status inference for a requirement item (`met` test first, then
`partial`, else the `not-met` default). -/
def inferStatus (it : List Char) : String :=
  if metKw it then "met" else if partialKw it then "partial" else "not-met"

/-- The fixed category vocabulary, in source order. -/
def reqCategories : List String :=
  ["Tax", "Reporting", "Financial", "Data Protection", "Privacy", "Employment",
   "Banking", "Securities", "AML", "KYC", "Environmental", "Health",
   "Registration", "Licensing", "Capital", "Insurance"]

/-- Category inference: first vocabulary word found (case-insensitively)
in the item, defaulting to "General". -/
def inferCategory (it : List Char) : String :=
  (reqCategories.find? (fun c => containsCIL c.data it)).getD "General"

/-- Risk inference (`high risk|severe|critical` then `low risk|minor`,
else `medium`). -/
def inferRisk (it : List Char) : String :=
  if containsCIL "high risk".data it || containsCIL "severe".data it ||
      containsCIL "critical".data it then "high"
  else if containsCIL "low risk".data it || containsCIL "minor".data it then "low"
  else "medium"

/-- Build the requirement record for the `i`-th bullet item (1-based),
as the loop body of `extract_requirements` does. -/
def mkReq (i : Nat) (item : String) : Requirement :=
  { id := "req-" ++ toString i,
    title := truncTitle item,
    description := item,
    category := inferCategory item.data,
    status := inferStatus item.data,
    risk := inferRisk item.data,
    regulatoryReferences :=
      match linkSearch item.data with
      | some (t, u) =>
        some [{ id := "ref-" ++ toString i,
                title := t,
                description := "Regulatory reference for " ++ t,
                url := u,
                documentType := "Regulation",
                issuer := get_issuer_from_url u }]
      | none => none }

/-- The requirement record built in the sentence-splitting fallback. -/
def sentReq (i : Nat) (sentence : String) : Requirement :=
  { id := "req-" ++ toString i,
    title := truncTitle sentence,
    description := sentence,
    category := "General",
    status := "not-met",
    risk := "medium",
    regulatoryReferences := none }

/-- The requirement record built in the regulation-mention fallback. -/
def mentionReq (i : Nat) (mention : String) : Requirement :=
  { id := "req-" ++ toString i,
    title := truncTitle mention,
    description := mention,
    category := "General",
    status := "not-met",
    risk := "medium",
    regulatoryReferences := none }

/-- The bullet items of the requirements section, when one is found
(empty otherwise): the first half of `extract_requirements`. -/
def reqItemsOf (content : String) : List String :=
  match reqSecGo content.data with
  | some sec => bulletsGo (pyStrip sec) true
  | none => []

/-- The `requirements` list built by the section half of
`extract_requirements`: bullet items of the section when there are any,
else the sentence-splitting fallback; empty when no section matches. -/
def reqBase (content : String) : List Requirement :=
  match reqSecGo content.data with
  | some sec =>
    if (bulletsGo (pyStrip sec) true).isEmpty then
      (pySentSplit (pyStrip sec)).enum.filterMap (fun (p : Nat × String) =>
        if (pyStrip p.2.data).length > 10 then some (sentReq (p.1 + 1) p.2)
        else none)
    else
      (bulletsGo (pyStrip sec) true).enum.map
        (fun (p : Nat × String) => mkReq (p.1 + 1) p.2)
  | none => []

/-- `compliance_evaluator.py` `extract_requirements`: requirements
section → bullet items → sentence split fallback → whole-document
regulation-mention fallback; an empty list when everything fails. -/
def extract_requirements (content : String) : List Requirement :=
  if (reqBase content).isEmpty then
    (regMentionsGo content.data).enum.filterMap (fun (p : Nat × String) =>
      if (pyStrip p.2.data).length > 10 then some (mentionReq (p.1 + 1) p.2)
      else none)
  else reqBase content

/-! ### `query_perplexity_api` (compliance_evaluator.py variant) -/

end EvalPy

/-- One upstream HTTP interaction as seen by `query_perplexity_api`: a
successful 200 response with a JSON body, a non-200 status code, or a
transport-level error (`requests.exceptions.RequestException`). -/
inductive UpResp where
  | good (body : PyVal)
  | bad (code : Nat)
  | netErr

/-- Observable outcome of a `query_perplexity_api` call: the returned
JSON or raised error, the number of HTTP requests sent, and the sequence
of back-off sleeps (in seconds). -/
structure QueryTrace where
  result : Except String PyVal
  attempts : Nat
  sleeps : List Nat

namespace EvalPy

/-- The `while retry_count < max_retries` loop of
`compliance_evaluator.py` `query_perplexity_api`, reading the `attempt`-th
upstream response from `resp`.
On 429 the retry counter is bumped and the loop sleeps `2 ** retry_count`
seconds; any other non-200 status raises `HTTPError("API error: ...")`,
which the `except HTTPError` handler re-raises only when the string
"429" does not occur in the message (when it does occur, e.g. for status
4290, the exception is swallowed and the loop repeats without bumping
the counter, which is why a fuel parameter is needed); a network error
bumps the counter and sleeps `retry_count * 2` seconds, raising after
the third.  `none` means the loop is still running when the fuel runs
out. -/
def query1Go (resp : Nat → UpResp) (fuel attempt retry_count : Nat)
    (sleeps : List Nat) : Option QueryTrace :=
  if retry_count ≥ 3 then
    some ⟨.error "Failed to get a valid response from Perplexity API after multiple attempts",
          attempt, sleeps⟩
  else
    match fuel with
    | 0 => none
    | fuel + 1 =>
      match resp attempt with
      | .good body => some ⟨.ok body, attempt + 1, sleeps⟩
      | .bad code =>
        if code = 429 then
          query1Go resp fuel (attempt + 1) (retry_count + 1)
            (sleeps ++ [2 ^ (retry_count + 1)])
        else if containsL "429".data ("API error: " ++ toString code).data then
          query1Go resp fuel (attempt + 1) retry_count sleeps
        else
          some ⟨.error ("API error: " ++ toString code), attempt + 1, sleeps⟩
      | .netErr =>
        if retry_count + 1 < 3 then
          query1Go resp fuel (attempt + 1) (retry_count + 1)
            (sleeps ++ [(retry_count + 1) * 2])
        else
          some ⟨.error "RequestException: maximum retries reached", attempt + 1, sleeps⟩

/-- `compliance_evaluator.py` `query_perplexity_api`, with enough fuel
for every run in which non-429 statuses do not contain "429" in their
decimal representation (`C5_retry_behavior`): in those runs at most 3
requests are ever sent. -/
def query_perplexity_api (resp : Nat → UpResp) : Option QueryTrace :=
  query1Go resp 3 0 0 []

end EvalPy

namespace PerpPy

/-- `compliance_evaluator_perplexity.py` `query_perplexity_api`: no
retry counter at all — on 429 it sleeps 60 seconds and recurses
unconditionally, so the fuel counts the recursion depth.  The second
component is the number of HTTP requests sent so far (also when the
fuel runs out with the call still running, result `none`). -/
def query2Go (resp : Nat → UpResp) : Nat → Nat → Option (Except String PyVal) × Nat
  | 0, attempt => (none, attempt)
  | fuel + 1, attempt =>
    match resp attempt with
    | .good body => (some (.ok body), attempt + 1)
    | .bad code =>
      if code = 429 then query2Go resp fuel (attempt + 1)
      else (some (.error ("API error: " ++ toString code)), attempt + 1)
    | .netErr => (some (.error "RequestException"), attempt + 1)

end PerpPy

/-! ## app.py: the `/analyze-compliance` route and its cache -/

namespace AppPy

/-- The in-memory analysis cache `stored_analysis_results`: cache key →
(timestamp, cached `data`).  A Python dict assignment is modelled by
prepending, with first-match lookup. -/
abbrev Cache := List (String × (Int × Option Report))

/-- Python dict membership + read for the cache. -/
def cacheLookup : Cache → String → Option (Int × Option Report)
  | [], _ => none
  | (k, v) :: r, key => if k = key then some v else cacheLookup r key

/-- Body of a route response: an error JSON or a (possibly `null`)
formatted report. -/
inductive RespBody where
  | err (msg : String)
  | report (r : Option Report)

/-- Observable outcome of one `/analyze-compliance` call: HTTP status,
body, the cache afterwards, and whether the Perplexity client was
invoked. -/
structure AnalyzeResult where
  status : Nat
  body : RespBody
  cache : Cache
  called : Bool

/-- `data.get(key)` — raises `AttributeError` on a non-dict. -/
def pyGetAttr (d : PyVal) (k : String) : Except String PyVal :=
  match d with
  | .dict l => .ok ((lookupAssoc l k).getD .pynone)
  | _ => .error "AttributeError"

/-- `data.get(key, default)` — raises `AttributeError` on a non-dict. -/
def pyGetAttrD (d : PyVal) (k : String) (dflt : PyVal) : Except String PyVal :=
  match d with
  | .dict l => .ok ((lookupAssoc l k).getD dflt)
  | _ => .error "AttributeError"

/-- The cache-miss branch of `analyze_compliance`: call Perplexity
(`oracle` models `get_compliance_from_perplexity`, which catches its own
exceptions and returns `None` on failure), format, store, return 200. -/
def analyzeMiss (oracle : PyVal → PyVal → PyVal → Option PyVal)
    (cache : Cache) (now : Int) (key : String) (ak pf jur : PyVal) :
    Except String AnalyzeResult :=
  match oracle ak pf jur with
  | none =>
    .ok ⟨500, .err "Failed to get compliance data from Perplexity API", cache, true⟩
  | some cd =>
    if pyFalsy cd then
      .ok ⟨500, .err "Failed to get compliance data from Perplexity API", cache, true⟩
    else
      .ok ⟨200, .report (format_compliance_response cd jur),
           (key, (now, format_compliance_response cd jur)) :: cache, true⟩

/-- The `try` body of the `/analyze-compliance` handler: presence
checks, cache-key construction, TTL check (entries younger than 3600
seconds are served from the cache without calling Perplexity), else the
miss branch. -/
def analyzeBody (oracle : PyVal → PyVal → PyVal → Option PyVal)
    (cache : Cache) (now : Int) (d : PyVal) : Except String AnalyzeResult :=
  if pyFalsy d then .ok ⟨400, .err "No data provided", cache, false⟩
  else
    match pyGetAttr d "apiKey", pyGetAttr d "companyProfile", pyGetAttr d "jurisdiction" with
    | .ok ak, .ok pf, .ok jur =>
      if pyFalsy ak || pyFalsy pf || pyFalsy jur then
        .ok ⟨400, .err "Missing required fields", cache, false⟩
      else
        match pyGetAttrD pf "companyName" (.str ""), pyGetAttrD pf "industry" (.str "") with
        | .ok cn, .ok ind =>
          match cacheLookup cache
              (pyStrPy jur ++ "_" ++ pyStrPy cn ++ "_" ++ pyStrPy ind) with
          | some (ts, dat) =>
            if now - ts < 3600 then .ok ⟨200, .report dat, cache, false⟩
            else
              analyzeMiss oracle cache now
                (pyStrPy jur ++ "_" ++ pyStrPy cn ++ "_" ++ pyStrPy ind) ak pf jur
          | none =>
            analyzeMiss oracle cache now
              (pyStrPy jur ++ "_" ++ pyStrPy cn ++ "_" ++ pyStrPy ind) ak pf jur
        | .error e, _ => .error e
        | _, .error e => .error e
    | .error e, _, _ => .error e
    | _, .error e, _ => .error e
    | _, _, .error e => .error e

/-- `app.py` `analyze_compliance`: the route body with its catch-all
`except` turning any raised exception into a 500 response (the cache is
unchanged on that path, since the only raising operations precede every
cache write). -/
def analyze_compliance (oracle : PyVal → PyVal → PyVal → Option PyVal)
    (cache : Cache) (now : Int) (d : PyVal) : AnalyzeResult :=
  match analyzeBody oracle cache now d with
  | .ok r => r
  | .error e => ⟨500, .err ("Failed to process request: " ++ e), cache, false⟩

end AppPy

/-! ## compliance_evaluator.py: `analyze_documents` -/

namespace EvalPy

/-- The `--- Document: ... ---` banner inserted before each document's
text (an f-string, so the file name goes through `str()`). -/
def docHeader (fn : PyVal) : String :=
  "\n\n--- Document: " ++ pyStrPy fn ++ " ---\n\n"

/-- The file-type dispatch of the document loop, after base64 handling:
PDF extraction (`pdfText` models `extract_text_from_pdf`, which catches
all its own exceptions), UTF-8 decoding for text files (`decU` models
`content.decode`, `none` for the exception its inner `try` catches), and
a skip for unsupported types.  A non-string file name raises
`AttributeError` at `.lower()`, caught by the per-document handler; in
every caught case the accumulated text is unchanged. -/
def dispatchDoc (pdfText : PyVal → String) (decU : PyVal → Option String)
    (fn content : PyVal) (acc : String) : String :=
  match fn with
  | .str fs =>
    if endsWithL ".pdf".data (pyLowerL fs.data) then
      acc ++ docHeader fn ++ pdfText content
    else if endsWithL ".txt".data (pyLowerL fs.data) ||
        endsWithL ".md".data (pyLowerL fs.data) ||
        endsWithL ".csv".data (pyLowerL fs.data) then
      match decU content with
      | some t => acc ++ docHeader fn ++ t
      | none => acc
    else acc
  | _ => acc

/-- The base64 handling of one document's content (`b64` models
`base64.b64decode`, `none` for `binascii.Error`): a `data:` URL takes
the piece after the first comma (an `IndexError` when there is none is
caught per-document); a plain string that fails to decode is appended
as raw text; everything else flows to the file-type dispatch. -/
def processContent (pdfText : PyVal → String) (decU : PyVal → Option String)
    (b64 : String → Option PyVal) (fn content : PyVal) (acc : String) : String :=
  match content with
  | .str str =>
    if isPrefixL "data:".data str.data then
      match (chSplit ',' str.data).get? 1 with
      | none => acc
      | some part =>
        match b64 (String.mk part) with
        | some b => dispatchDoc pdfText decU fn b acc
        | none => acc
    else
      match b64 str with
      | some b => dispatchDoc pdfText decU fn b acc
      | none => acc ++ docHeader fn ++ str
  | c => dispatchDoc pdfText decU fn c acc

/-- The `for doc in documents` loop of `analyze_documents`.  `bound` is
the state of the function-scoped variable `file_name`: the per-document
`except` handler prints an f-string mentioning `file_name`, so when the
failing document is not a dict and no earlier iteration has bound the
name, the handler itself raises `UnboundLocalError`, aborting the whole
call. -/
def analyzeDocsGo (pdfText : PyVal → String) (decU : PyVal → Option String)
    (b64 : String → Option PyVal) :
    List PyVal → Option PyVal → String → Except String String
  | [], _, acc => .ok acc
  | doc :: rest, bound, acc =>
    match doc with
    | .dict dl =>
      if pyFalsy ((lookupAssoc dl "content").getD .pynone) then
        analyzeDocsGo pdfText decU b64 rest
          (some ((lookupAssoc dl "file_name").getD (.str "Unknown document"))) acc
      else
        analyzeDocsGo pdfText decU b64 rest
          (some ((lookupAssoc dl "file_name").getD (.str "Unknown document")))
          (processContent pdfText decU b64
            ((lookupAssoc dl "file_name").getD (.str "Unknown document"))
            ((lookupAssoc dl "content").getD .pynone) acc)
    | _ =>
      match bound with
      | some _ => analyzeDocsGo pdfText decU b64 rest bound acc
      | none =>
        .error "UnboundLocalError: local variable file_name referenced before assignment"

/-- `compliance_evaluator.py` `analyze_documents`: empty input yields
the empty string; otherwise the document loop runs, and when the
accumulated text exceeds 10000 characters and a Mistral client is
configured, a best-effort summary (`summarize` models
`summarize_with_mistral`; `none` covers both failure and `None`) is
prepended. -/
def analyze_documents (pdfText : PyVal → String) (decU : PyVal → Option String)
    (b64 : String → Option PyVal) (mistralConfigured : Bool)
    (summarize : String → Option String) (documents : List PyVal) :
    Except String String :=
  if documents.isEmpty then .ok ""
  else
    match analyzeDocsGo pdfText decU b64 documents none "" with
    | .error e => .error e
    | .ok all_text =>
      .ok (if all_text.data.length > 10000 && mistralConfigured then
        match summarize all_text with
        | some summary =>
          if summary.data.isEmpty then all_text
          else "# Document Summary\n\n" ++ summary ++
            "\n\n# Full Document Text\n\n" ++ all_text
        | none => all_text
      else all_text)

end EvalPy

/-! ## app.py: `generate_csv_report` and a standard CSV reader -/

namespace AppPy

/-- Python `csv.writer` default (excel dialect, QUOTE_MINIMAL): a field
is quoted iff it contains the delimiter, the quote character, or a
line-terminator character. -/
def needsQuote (f : List Char) : Bool :=
  f.any (fun c => c == ',' || c == '"' || c == '\r' || c == '\n')

/-- Double each embedded quote character (doublequote=True). -/
def escQuotes : List Char → List Char
  | [] => []
  | c :: r => if c == '"' then '"' :: '"' :: escQuotes r else c :: escQuotes r

/-- Encode one CSV field with minimal quoting. -/
def encodeField (f : String) : List Char :=
  if needsQuote f.data then '"' :: (escQuotes f.data ++ ['"']) else f.data

/-- Encode one row: fields joined by commas, terminated by CRLF (the
excel dialect line terminator). -/
def encRow : List String → List Char
  | [] => ['\r', '\n']
  | [f] => encodeField f ++ ['\r', '\n']
  | f :: rest => encodeField f ++ ',' :: encRow rest

/-- Encode a whole CSV document. -/
def encodeCsv (rows : List (List String)) : List Char :=
  rows.foldr (fun r acc => encRow r ++ acc) []

/-- Reader states: outside quotes (`unq`), inside a quoted field
(`inq`), inside a quoted field right after a quote character (`postq`:
a second quote is an escaped quote, anything else closes the field),
and outside quotes right after a carriage return (`postcr`: a newline
completes the CRLF record terminator, anything else makes the `\r` a
literal field character). -/
inductive CsvMode where
  | unq
  | inq
  | postq
  | postcr
deriving DecidableEq, Repr

/-- A standard (RFC-4180-style, Python `csv.reader`-compatible) CSV
reader as a character-at-a-time state machine: `field` is the current
field, `rec` the fields of the current record, and `saw` whether the
current record has seen any character (a blank line parses as the empty
record, as `csv.reader` yields).  One character is consumed per step,
with the two-character lookaheads (`""` and CRLF) expressed through the
`postq`/`postcr` states. -/
def csvGo : List Char → CsvMode → List Char → List String → Bool → List (List String)
  | [], mode, field, rec, saw =>
    match mode with
    | .unq => if saw then [rec ++ [String.mk field]] else []
    | .postcr => [rec ++ [String.mk (field ++ ['\r'])]]
    | _ => [rec ++ [String.mk field]]
  | c :: rest, mode, field, rec, saw =>
    match mode with
    | .inq =>
      if c == '"' then csvGo rest .postq field rec saw
      else csvGo rest .inq (field ++ [c]) rec saw
    | .postq =>
      if c == '"' then csvGo rest .inq (field ++ ['"']) rec saw
      else if c == ',' then csvGo rest .unq [] (rec ++ [String.mk field]) true
      else if c == '\r' then csvGo rest .postcr field rec saw
      else if c == '\n' then
        (if saw then rec ++ [String.mk field] else []) :: csvGo rest .unq [] [] false
      else csvGo rest .unq (field ++ [c]) rec true
    | .postcr =>
      if c == '\n' then
        (if saw then rec ++ [String.mk field] else []) :: csvGo rest .unq [] [] false
      else if c == '"' then csvGo rest .inq (field ++ ['\r']) rec true
      else if c == ',' then csvGo rest .unq [] (rec ++ [String.mk (field ++ ['\r'])]) true
      else if c == '\r' then csvGo rest .postcr (field ++ ['\r']) rec true
      else csvGo rest .unq (field ++ ['\r', c]) rec true
    | .unq =>
      if c == '"' then csvGo rest .inq field rec true
      else if c == ',' then csvGo rest .unq [] (rec ++ [String.mk field]) true
      else if c == '\r' then csvGo rest .postcr field rec saw
      else if c == '\n' then
        (if saw then rec ++ [String.mk field] else []) :: csvGo rest .unq [] [] false
      else csvGo rest .unq (field ++ [c]) rec true

/-- Parse a CSV document into its records. -/
def parseCsv (s : String) : List (List String) :=
  csvGo s.data .unq [] [] false

/-- The `csv.writer` field conversion: `None` becomes the empty field,
everything else goes through `str()`. -/
def csvField (v : PyVal) : String :=
  match v with
  | .pynone => ""
  | v => pyStrPy v

/-- One requirement row of `generate_csv_report` (`req.get(key, '')` for
the seven columns; a non-dict element raises, modelled as `none`). -/
def reqRow (req : PyVal) : Option (List String) :=
  match req with
  | .dict rl =>
    some [csvField ((lookupAssoc rl "id").getD (.str "")),
          csvField ((lookupAssoc rl "title").getD (.str "")),
          csvField ((lookupAssoc rl "category").getD (.str "")),
          csvField ((lookupAssoc rl "status").getD (.str "")),
          csvField ((lookupAssoc rl "risk").getD (.str "")),
          csvField ((lookupAssoc rl "description").getD (.str "")),
          csvField ((lookupAssoc rl "recommendation").getD (.str ""))]
  | _ => none

/-- `List.mapM` over `Option`, written out for easy inversion. -/
def optMapM (f : α → Option β) : List α → Option (List β)
  | [] => some []
  | a :: l =>
    match f a, optMapM f l with
    | some b, some bs => some (b :: bs)
    | _, _ => none

/-- `report_data.get('requirements', {}).get('total'/'met', 0)`: raises
(modelled as `none`) when the `requirements` value is present but not a
dict. -/
def reqSummaryVals (l : List (String × PyVal)) : Option (PyVal × PyVal) :=
  match (lookupAssoc l "requirements").getD (.dict []) with
  | .dict rl => some ((lookupAssoc rl "total").getD (.int 0),
                      (lookupAssoc rl "met").getD (.int 0))
  | _ => none

/-- The twelve header/summary rows written before the requirement rows
(`now` stands for `datetime.now().strftime(...)`). -/
def fixedRows (l : List (String × PyVal)) (now : String) (totV metV : PyVal) :
    List (List String) :=
  [["Jurisdiction", csvField ((lookupAssoc l "jurisdictionName").getD (.str "Unknown"))],
   ["Generated", now],
   ["Compliance Score", pyStrPy ((lookupAssoc l "complianceScore").getD (.int 0)) ++ "%"],
   ["Risk Level", csvField ((lookupAssoc l "riskLevel").getD (.str "Unknown"))],
   ["Status", csvField ((lookupAssoc l "status").getD (.str "Unknown"))],
   [],
   ["REQUIREMENTS SUMMARY"],
   ["Total Requirements", csvField totV],
   ["Requirements Met", csvField metV],
   [],
   ["DETAILED REQUIREMENTS"],
   ["ID", "Title", "Category", "Status", "Risk", "Description", "Recommendation"]]

/-- The rows written by `generate_csv_report` (`none` models a raised
exception, e.g. a non-dict requirement element). -/
def buildRows (rd : PyVal) (now : String) : Option (List (List String)) :=
  match rd with
  | .dict l =>
    match reqSummaryVals l,
          pyElems ((lookupAssoc l "requirementsList").getD (.list [])) with
    | some (totV, metV), some reqs =>
      match optMapM reqRow reqs with
      | some reqRows => some (fixedRows l now totV metV ++ reqRows)
      | none => none
    | _, _ => none
  | _ => none

/-- `app.py` `generate_csv_report`: the built rows, CSV-encoded (the
Python function returns the UTF-8 bytes of this string). -/
def generate_csv_report (rd : PyVal) (now : String) : Option String :=
  (buildRows rd now).map (fun rows => String.mk (encodeCsv rows))

end AppPy

/-! ## compliance_evaluator_perplexity.py: jurisdiction table -/

namespace PerpPy

/-- `compliance_evaluator_perplexity.py` `get_jurisdiction_name`:
14-entry table on the lower-cased id, defaulting to the id unchanged. -/
def get_jurisdiction_name (jurisdiction_id : String) : String :=
  let jurisdiction_map : List (String × String) :=
    [("us", "United States"), ("uk", "United Kingdom"), ("eu", "European Union"),
     ("in", "India"), ("sg", "Singapore"), ("au", "Australia"), ("ca", "Canada"),
     ("de", "Germany"), ("fr", "France"), ("jp", "Japan"), ("cn", "China"),
     ("br", "Brazil"), ("za", "South Africa"), ("ae", "United Arab Emirates")]
  match jurisdiction_map.lookup (String.mk (pyLowerL jurisdiction_id.data)) with
  | some n => n
  | none => jurisdiction_id

end PerpPy

end ComplianceSync

namespace ComplianceSync

/-- On a list of dict elements, `AppPy.countMet` succeeds and counts the
elements whose `status` is the string `met`. -/
theorem countMet_eq_countP (reqs : List PyVal)
    (hd : ∀ r ∈ reqs, ∃ rl, r = PyVal.dict rl) :
    AppPy.countMet reqs = some (reqs.countP (fun r => AppPy.reqIsMet r)) := by
  induction reqs with
  | nil => simp [AppPy.countMet, List.countP_nil]
  | cons a rest ih =>
    obtain ⟨rl, rfl⟩ := hd a (List.mem_cons_self a rest)
    have ih2 := ih (fun r hr => hd r (List.mem_cons_of_mem _ hr))
    simp only [AppPy.countMet, ih2, Option.map_some]
    simp only [List.countP_cons, AppPy.reqIsMet]
    split
    case isTrue h => simp [h, Nat.add_comm]
    case isFalse h => simp [h]

/-- If a key is present, the dict is nonempty, hence truthy. -/
theorem lookupAssoc_ne_nil {l : List (String × PyVal)} {k : String} {v : PyVal}
    (h : lookupAssoc l k = some v) : l ≠ [] := by
  intro hnil
  subst hnil
  simp [lookupAssoc] at h

/-- C1: for every compliance_data dictionary whose `requirementsList` key
holds a list of dict entries, `format_compliance_response` returns a
report with `requirements.total` equal to the length of the list and
`requirements.met` equal to the number of entries whose `status` equals
`met`. -/
theorem C1_requirement_counts (l : List (String × PyVal)) (reqs : List PyVal)
    (j : String)
    (hrl : lookupAssoc l "requirementsList" = some (PyVal.list reqs))
    (hd : ∀ r ∈ reqs, ∃ rl, r = PyVal.dict rl) :
    ∃ rep, AppPy.format_compliance_response (PyVal.dict l) (PyVal.str j) = some rep ∧
      rep.requirementsTotal = reqs.length ∧
      rep.requirementsMet = reqs.countP (fun r => AppPy.reqIsMet r) := by
  have hne : l ≠ [] := lookupAssoc_ne_nil hrl
  have hfalse : l.isEmpty = false := by
    cases l with
    | nil => exact absurd rfl hne
    | cons a r => rfl
  have hfmt : AppPy.format_compliance_response (PyVal.dict l) (PyVal.str j) =
      some { jurisdictionId := PyVal.str j,
             jurisdictionName := AppPy.get_jurisdiction_name j,
             flag := AppPy.get_jurisdiction_flag j,
             complianceScore := (lookupAssoc l "complianceScore").getD (PyVal.int 0),
             status := (lookupAssoc l "status").getD (PyVal.str "non-compliant"),
             riskLevel := (lookupAssoc l "riskLevel").getD (PyVal.str "high"),
             requirementsTotal := reqs.length,
             requirementsMet := reqs.countP (fun r => AppPy.reqIsMet r),
             requirementsList := PyVal.list reqs } := by
    simp only [AppPy.format_compliance_response, pyFalsy, hfalse, Bool.false_eq_true,
      if_false, hrl, Option.getD_some, pyLen, pyElems,
      countMet_eq_countP reqs hd]
  exact ⟨_, hfmt, rfl, rfl⟩

/-- C1 witness: a concrete two-requirement payload, one `met`. -/
theorem C1_requirement_counts_witness :
    ∃ rep, AppPy.format_compliance_response
        (PyVal.dict [("requirementsList",
          PyVal.list [PyVal.dict [("status", PyVal.str "met")],
                      PyVal.dict [("status", PyVal.str "partial")]])])
        (PyVal.str "us") = some rep ∧
      rep.requirementsTotal = 2 ∧ rep.requirementsMet = 1 := by
  obtain ⟨rep, h1, h2, h3⟩ :=
    C1_requirement_counts
      [("requirementsList",
        PyVal.list [PyVal.dict [("status", PyVal.str "met")],
                    PyVal.dict [("status", PyVal.str "partial")]])]
      [PyVal.dict [("status", PyVal.str "met")],
       PyVal.dict [("status", PyVal.str "partial")]]
      "us" rfl (by intro r hr; fin_cases hr <;> exact ⟨_, rfl⟩)
  exact ⟨rep, h1, h2.trans rfl, h3.trans rfl⟩

/-- C4 counterexample: a parsed payload with no `complianceScore` key is
formatted with score 0, not the claimed safe default 50. -/
theorem C4_score_default_counterexample :
    (AppPy.format_compliance_response
        (PyVal.dict [("requirementsList", PyVal.list []),
                     ("status", PyVal.str "partial")])
        (PyVal.str "us")).map (fun r => r.complianceScore) = some (PyVal.int 0) ∧
      PyVal.int 0 ≠ PyVal.int 50 := by
  exact ⟨rfl, by simp⟩

/-- C4 (amended): when the parsed LLM answer has no `complianceScore`
field, the compliance score in the formatted report defaults to 0 rather
than erroring. -/
theorem C4_score_default (l : List (String × PyVal)) (jur : PyVal)
    (rep : AppPy.Report)
    (hscore : lookupAssoc l "complianceScore" = none)
    (hfmt : AppPy.format_compliance_response (PyVal.dict l) jur = some rep) :
    rep.complianceScore = PyVal.int 0 := by
  simp only [AppPy.format_compliance_response] at hfmt
  split at hfmt
  · exact Option.noConfusion hfmt
  repeat split at hfmt
  all_goals
    first
    | exact Option.noConfusion hfmt
    | (injection hfmt with h
       subst h
       simp [hscore])

/-- C4 witness: concrete application of the amended default-score
theorem. -/
theorem C4_score_default_witness :
    ∃ rep, AppPy.format_compliance_response
        (PyVal.dict [("requirementsList", PyVal.list [])])
        (PyVal.str "eu") = some rep ∧ rep.complianceScore = PyVal.int 0 := by
  have hfmt : AppPy.format_compliance_response
      (PyVal.dict [("requirementsList", PyVal.list [])]) (PyVal.str "eu") =
      some { jurisdictionId := PyVal.str "eu",
             jurisdictionName := "European Union",
             flag := "🇪🇺",
             complianceScore := PyVal.int 0,
             status := PyVal.str "non-compliant",
             riskLevel := PyVal.str "high",
             requirementsTotal := 0,
             requirementsMet := 0,
             requirementsList := PyVal.list [] } := rfl
  exact ⟨_, hfmt,
    C4_score_default [("requirementsList", PyVal.list [])] (PyVal.str "eu") _ rfl hfmt⟩

/-- C7 counterexample: `treasury.gov` is a `.gov` domain absent from the
table with only two dot-separated labels, so the code returns the bare
"Government Agency" string instead of the claimed
"TREASURY - Government Agency". -/
theorem C7_issuer_counterexample :
    EvalPy.get_issuer_from_url "https://treasury.gov/page" = "Government Agency" ∧
      ("Government Agency" : String) ≠ "TREASURY - Government Agency" :=
  ⟨rfl, by decide⟩

/-- C7 (amended): `get_issuer_from_url` returns the mapped issuer name
when the domain contains a table key, the string
"AGENCY - Government Agency" (first label uppercased) for an unmapped
`.gov` domain with at least three dot-separated labels, the bare
"Government Agency" string for an unmapped `.gov` domain with fewer
labels, and otherwise the bare domain. -/
theorem C7_issuer_classification (url : String) (domain : List Char)
    (hdom : (chSplit '/' url.data)[2]? = some domain) :
    (∀ v, EvalPy.issuerMatch domain EvalPy.issuer_map = some v →
        EvalPy.get_issuer_from_url url = v) ∧
    (EvalPy.issuerMatch domain EvalPy.issuer_map = none →
      containsL ".gov".data domain = true →
      EvalPy.get_issuer_from_url url =
        (if (chSplit '.' domain).length ≥ 3 then
          String.mk (((chSplit '.' domain).headD []).map Char.toUpper) ++
            " - Government Agency"
         else "Government Agency")) ∧
    (EvalPy.issuerMatch domain EvalPy.issuer_map = none →
      containsL ".gov".data domain = false →
      EvalPy.get_issuer_from_url url = String.mk domain) := by
  refine ⟨?_, ?_, ?_⟩
  · intro v hv
    simp [EvalPy.get_issuer_from_url, hdom, hv]
  · intro hm hgov
    simp [EvalPy.get_issuer_from_url, hdom, hm, hgov]
  · intro hm hgov
    simp [EvalPy.get_issuer_from_url, hdom, hm, hgov]

/-- C7 witness: concrete applications of all three branches of the
issuer classification. -/
theorem C7_issuer_classification_witness :
    EvalPy.get_issuer_from_url "https://www.sec.gov/rules" =
      "Securities and Exchange Commission" ∧
    EvalPy.get_issuer_from_url "https://data.treasury.gov/x" =
      "DATA - Government Agency" ∧
    EvalPy.get_issuer_from_url "https://example.com/x" = "example.com" := by
  refine ⟨?_, ?_, ?_⟩
  · exact (C7_issuer_classification "https://www.sec.gov/rules" "www.sec.gov".data
      rfl).1 _ rfl
  · exact ((C7_issuer_classification "https://data.treasury.gov/x"
      "data.treasury.gov".data rfl).2.1 rfl rfl).trans (by decide)
  · exact (C7_issuer_classification "https://example.com/x" "example.com".data
      rfl).2.2 rfl rfl

/-- C10 counterexample: for jurisdiction id `de`, `app.py` returns
"Germany" while `compliance_evaluator.py` returns the id unchanged, so
the three lookups do not agree on every id. -/
theorem C10_jurisdiction_counterexample :
    AppPy.get_jurisdiction_name "de" = "Germany" ∧
      EvalPy.get_jurisdiction_name "de" = "de" ∧
      ("Germany" : String) ≠ "de" :=
  ⟨rfl, rfl, by decide⟩

/-- C10 (amended): the three jurisdiction-name lookups agree on the
lower-case ids present in all three tables: us, uk, eu, ca, au, sg,
in. -/
theorem C10_jurisdiction_agreement :
    (["us", "uk", "eu", "ca", "au", "sg", "in"].all (fun j =>
      (AppPy.get_jurisdiction_name j == EvalPy.get_jurisdiction_name j) &&
      (EvalPy.get_jurisdiction_name j == PerpPy.get_jurisdiction_name j))) = true := by
  decide

/-! ## Theorems for C2 and C3 (the extractor) -/

theorem dropPrefixL_isSome (p : List Char) : ∀ s : List Char,
    (dropPrefixL p s).isSome = isPrefixL p s := by
  induction p with
  | nil => intro s; simp [dropPrefixL, isPrefixL]
  | cons a ps ih =>
    intro s
    cases s with
    | nil => simp [dropPrefixL, isPrefixL]
    | cons c cs =>
      simp only [dropPrefixL, isPrefixL]
      by_cases h : (a == c) = true
      · simp [h, ih]
      · simp only [Bool.not_eq_true] at h
        simp [h]

theorem dropPrefixCIL_isSome (p : List Char) : ∀ s : List Char,
    (dropPrefixCIL p s).isSome = isPrefixCIL p s := by
  induction p with
  | nil => intro s; simp [dropPrefixCIL, isPrefixCIL]
  | cons a ps ih =>
    intro s
    cases s with
    | nil => simp [dropPrefixCIL, isPrefixCIL]
    | cons c cs =>
      simp only [dropPrefixCIL, isPrefixCIL]
      by_cases h : lcEq a c = true
      · simp [h, ih]
      · simp only [Bool.not_eq_true] at h
        simp [h]

/-- A document containing no `## ` substring has no requirements-section
match. -/
theorem reqSecGo_eq_none {s : List Char}
    (h : containsL "## ".data s = false) : EvalPy.reqSecGo s = none := by
  induction s with
  | nil => rfl
  | cons c r ih =>
    simp only [containsL, Bool.or_eq_false_iff] at h
    obtain ⟨h1, h2⟩ := h
    have hdrop : dropPrefixL "## ".data (c :: r) = none := by
      have := dropPrefixL_isSome "## ".data (c :: r)
      rw [h1] at this
      exact Option.not_isSome_iff_eq_none.mp (by simp [this])
    simp only [EvalPy.reqSecGo, EvalPy.matchReqHeader, hdrop]
    exact ih h2

theorem tryAltsCI_eq_none {alts : List String} {s : List Char}
    (h : ∀ a ∈ alts, isPrefixCIL a.data s = false) :
    EvalPy.tryAltsCI alts s = none := by
  induction alts with
  | nil => rfl
  | cons a rest ih =>
    have hdrop : dropPrefixCIL a.data s = none := by
      have := dropPrefixCIL_isSome a.data s
      rw [h a (List.mem_cons_self a rest)] at this
      exact Option.not_isSome_iff_eq_none.mp (by simp [this])
    simp only [EvalPy.tryAltsCI, hdrop]
    exact ih (fun x hx => h x (List.mem_cons_of_mem _ hx))

/-- A document containing none of the regulation keywords has no
regulation-mention matches, at any fuel. -/
theorem regMentionsGoF_eq_nil {s : List Char} (f : Nat)
    (h : ∀ k ∈ EvalPy.mentionKws, containsCIL k.data s = false) :
    EvalPy.regMentionsGoF f s = [] := by
  induction f generalizing s with
  | zero => rfl
  | succ f ih =>
    cases s with
    | nil => rfl
    | cons c r =>
      have hsplit : ∀ k ∈ EvalPy.mentionKws,
          isPrefixCIL k.data (c :: r) = false ∧ containsCIL k.data r = false := by
        intro k hk
        have := h k hk
        simp only [containsCIL, Bool.or_eq_false_iff] at this
        exact this
      have hnone : EvalPy.tryAltsCI EvalPy.mentionKws (c :: r) = none :=
        tryAltsCI_eq_none (fun a ha => (hsplit a ha).1)
      simp only [EvalPy.regMentionsGoF, hnone]
      exact ih (fun k hk => (hsplit k hk).2)

/-- C2 counterexample: a Markdown input with no requirements section, no
bullet items and no regulation keywords yields the empty list, not the
claimed single synthetic requirement. -/
theorem C2_no_synthetic_counterexample :
    EvalPy.extract_requirements "This document says nothing relevant" = [] ∧
      ([] : List EvalPy.Requirement).length ≠ 1 :=
  ⟨rfl, by decide⟩

/-- C2 (amended): for every Markdown input containing no `## ` section
header and none of the regulation keywords (under, according to,
compliant with, compliance with, regulated by), `extract_requirements`
returns the empty list — no synthetic requirement is produced, and no
error is raised. -/
theorem C2_graceful_empty (content : String)
    (hsec : containsL "## ".data content.data = false)
    (hkw : ∀ k ∈ EvalPy.mentionKws, containsCIL k.data content.data = false) :
    EvalPy.extract_requirements content = [] := by
  have hbase : EvalPy.reqBase content = [] := by
    unfold EvalPy.reqBase
    rw [reqSecGo_eq_none hsec]
  unfold EvalPy.extract_requirements
  rw [hbase]
  simp [EvalPy.regMentionsGo, regMentionsGoF_eq_nil _ hkw]

/-- C2 witness: concrete application of the amended graceful-degradation
theorem. -/
theorem C2_graceful_empty_witness :
    EvalPy.extract_requirements "Nothing found here" = [] := by
  exact C2_graceful_empty "Nothing found here" rfl (by decide)

/-- C3 counterexample: the bullet item "partially compliant with data
protection rules" contains the word `partially`, yet the extractor
assigns it status `met` (the compliant-keyword test runs first), not the
claimed `partial`. -/
theorem C3_partially_compliant_counterexample :
    (EvalPy.extract_requirements
        "## Requirements
- partially compliant with data protection rules").map
      (fun r => r.status) = ["met"] ∧
      containsCIL "partially".data
        "partially compliant with data protection rules".data = true ∧
      ("met" : String) ≠ "partial" :=
  ⟨rfl, rfl, by decide⟩

/-- C3 (amended): for every item parsed from a requirements section, the
extractor infers status `met` when the item matches the compliant-style
keywords (compliant, in compliance, meet(s) requirement(s), fully
implemented), `partial` when it matches the partial keywords (partially,
in progress, some compliance) and no compliant-style keyword, and
`not-met` otherwise; in particular an item saying "partially compliant"
receives `met`, because the compliant-keyword test runs first. -/
theorem C3_item_status (content : String) (i : Nat) (item : String)
    (hitem : (EvalPy.reqItemsOf content).get? i = some item) :
    (EvalPy.extract_requirements content).get? i = some (EvalPy.mkReq (i + 1) item) ∧
      (EvalPy.mkReq (i + 1) item).status =
        (if EvalPy.metKw item.data then "met"
         else if EvalPy.partialKw item.data then "partial"
         else "not-met") := by
  refine ⟨?_, rfl⟩
  obtain ⟨sec, hsec⟩ : ∃ sec, EvalPy.reqSecGo content.data = some sec := by
    cases h : EvalPy.reqSecGo content.data with
    | none =>
      unfold EvalPy.reqItemsOf at hitem
      rw [h] at hitem
      simp at hitem
    | some sec => exact ⟨sec, rfl⟩
  have hitems : EvalPy.reqItemsOf content = EvalPy.bulletsGo (pyStrip sec) true := by
    unfold EvalPy.reqItemsOf
    rw [hsec]
  rw [hitems] at hitem
  have hne : (EvalPy.bulletsGo (pyStrip sec) true).isEmpty = false := by
    cases hb : EvalPy.bulletsGo (pyStrip sec) true with
    | nil => rw [hb] at hitem; simp at hitem
    | cons a rest => rfl
  have hb1 : EvalPy.reqBase content =
      (EvalPy.bulletsGo (pyStrip sec) true).enum.map
        (fun (p : Nat × String) => EvalPy.mkReq (p.1 + 1) p.2) := by
    unfold EvalPy.reqBase
    rw [hsec]
    simp only [hne, Bool.false_eq_true, if_false]
  have hb2 : (EvalPy.reqBase content).isEmpty = false := by
    rw [hb1]
    cases hb : EvalPy.bulletsGo (pyStrip sec) true with
    | nil => rw [hb] at hne; exact absurd hne (by simp)
    | cons a rest => simp [List.enum_cons]
  unfold EvalPy.extract_requirements
  simp only [hb2, Bool.false_eq_true, if_false]
  rw [hb1]
  rw [List.get?_map]
  rw [List.get?_enum]
  rw [hitem]
  rfl

/-- C3 witness: concrete application of the item-status theorem. -/
theorem C3_item_status_witness :
    (EvalPy.extract_requirements
        "## Requirements
- Fully compliant with tax filing requirements").get? 0 =
      some (EvalPy.mkReq 1 "Fully compliant with tax filing requirements") := by
  exact (C3_item_status "## Requirements
- Fully compliant with tax filing requirements"
    0 "Fully compliant with tax filing requirements" rfl).1

/-! ## Theorems for C5 (retry/backoff and termination) -/

/-- C5 counterexample: in the `compliance_evaluator_perplexity.py`
variant, ten consecutive 429 responses produce ten HTTP requests with
the call still running — there is no 3-attempt ceiling and no guarantee
of termination in that variant. -/
theorem C5_retry_counterexample :
    PerpPy.query2Go (fun _ => UpResp.bad 429) 10 0 = (none, 10) ∧ ¬ (10 ≤ 3) :=
  ⟨rfl, by decide⟩

/-- On a persistently rate-limited upstream, the perplexity-variant
client never completes, at any recursion depth. -/
theorem query2Go_429_diverges (fuel attempt : Nat) :
    PerpPy.query2Go (fun _ => UpResp.bad 429) fuel attempt = (none, attempt + fuel) := by
  induction fuel generalizing attempt with
  | zero => simp [PerpPy.query2Go]
  | succ fuel ih =>
    have hstep : PerpPy.query2Go (fun _ => UpResp.bad 429) (fuel + 1) attempt =
        PerpPy.query2Go (fun _ => UpResp.bad 429) fuel (attempt + 1) := by
      simp [PerpPy.query2Go]
    rw [hstep, ih (attempt + 1)]
    have harith : attempt + 1 + fuel = attempt + (fuel + 1) := by omega
    rw [harith]

/-- Attempt bound for the `compliance_evaluator.py` loop: as long as no
response carries a status code other than 429 whose decimal string
contains "429" (which the handler would swallow without bumping the
counter), the loop produces a result after at most `3 - retry_count`
further requests. -/
theorem query1Go_bound (resp : Nat → UpResp)
    (hgood : ∀ n c, resp n = UpResp.bad c →
      c = 429 ∨ containsL "429".data ("API error: " ++ toString c).data = false) :
    ∀ fuel attempt retry_count sleeps, 3 ≤ retry_count + fuel →
    ∃ t, EvalPy.query1Go resp fuel attempt retry_count sleeps = some t ∧
      t.attempts ≤ attempt + (3 - retry_count) := by
  intro fuel
  induction fuel with
  | zero =>
    intro attempt rc sleeps hf
    have hrc : rc ≥ 3 := by omega
    have heq : EvalPy.query1Go resp 0 attempt rc sleeps =
        some ⟨.error "Failed to get a valid response from Perplexity API after multiple attempts",
              attempt, sleeps⟩ := by
      unfold EvalPy.query1Go
      rw [if_pos hrc]
    exact ⟨_, heq, by show attempt ≤ attempt + (3 - rc); omega⟩
  | succ fuel ih =>
    intro attempt rc sleeps hf
    by_cases hrc : rc ≥ 3
    · have heq : EvalPy.query1Go resp (fuel + 1) attempt rc sleeps =
          some ⟨.error "Failed to get a valid response from Perplexity API after multiple attempts",
                attempt, sleeps⟩ := by
        unfold EvalPy.query1Go
        rw [if_pos hrc]
      exact ⟨_, heq, by show attempt ≤ attempt + (3 - rc); omega⟩
    · have hrc2 : rc < 3 := by omega
      cases hr : resp attempt with
      | good body =>
        have heq : EvalPy.query1Go resp (fuel + 1) attempt rc sleeps =
            some ⟨.ok body, attempt + 1, sleeps⟩ := by
          unfold EvalPy.query1Go
          rw [if_neg hrc, hr]
        exact ⟨_, heq, by show attempt + 1 ≤ attempt + (3 - rc); omega⟩
      | bad code =>
        rcases hgood attempt code hr with h429 | hno
        · subst h429
          have heq : EvalPy.query1Go resp (fuel + 1) attempt rc sleeps =
              EvalPy.query1Go resp fuel (attempt + 1) (rc + 1)
                (sleeps ++ [2 ^ (rc + 1)]) := by
            conv_lhs => unfold EvalPy.query1Go
            rw [if_neg hrc, hr]
            simp
          rw [heq]
          obtain ⟨t, ht, hb⟩ := ih (attempt + 1) (rc + 1) (sleeps ++ [2 ^ (rc + 1)]) (by omega)
          exact ⟨t, ht, by omega⟩
        · have hc : ¬ code = 429 := by
            intro h
            subst h
            exact absurd hno (by decide)
          have heq : EvalPy.query1Go resp (fuel + 1) attempt rc sleeps =
              some ⟨.error ("API error: " ++ toString code), attempt + 1, sleeps⟩ := by
            unfold EvalPy.query1Go
            rw [if_neg hrc, hr]
            simp only [hc, if_false, hno, Bool.false_eq_true]
          exact ⟨_, heq, by show attempt + 1 ≤ attempt + (3 - rc); omega⟩
      | netErr =>
        by_cases hn : rc + 1 < 3
        · have heq : EvalPy.query1Go resp (fuel + 1) attempt rc sleeps =
              EvalPy.query1Go resp fuel (attempt + 1) (rc + 1)
                (sleeps ++ [(rc + 1) * 2]) := by
            conv_lhs => unfold EvalPy.query1Go
            rw [if_neg hrc, hr]
            simp [hn]
          rw [heq]
          obtain ⟨t, ht, hb⟩ := ih (attempt + 1) (rc + 1) (sleeps ++ [(rc + 1) * 2]) (by omega)
          exact ⟨t, ht, by omega⟩
        · have heq : EvalPy.query1Go resp (fuel + 1) attempt rc sleeps =
              some ⟨.error "RequestException: maximum retries reached",
                    attempt + 1, sleeps⟩ := by
            conv_lhs => unfold EvalPy.query1Go
            rw [if_neg hrc, hr]
            simp [hn]
          exact ⟨_, heq, by show attempt + 1 ≤ attempt + (3 - rc); omega⟩

/-- C5 (amended): the `compliance_evaluator.py` variant retries 429 with
exponential backoff (2, 4, 8 seconds) up to a ceiling of 3 attempts and
then raises, and (for upstreams whose non-429 status codes do not
contain "429" as a substring of their decimal form) always terminates
within 3 attempts; the `compliance_evaluator_perplexity.py` variant
instead retries a 429 forever with a fixed 60-second sleep, never
completing under persistent rate limiting. -/
theorem C5_retry_behavior (resp : Nat → UpResp)
    (hgood : ∀ n c, resp n = UpResp.bad c →
      c = 429 ∨ containsL "429".data ("API error: " ++ toString c).data = false) :
    (∃ t, EvalPy.query_perplexity_api resp = some t ∧ t.attempts ≤ 3) ∧
    EvalPy.query_perplexity_api (fun _ => UpResp.bad 429) =
      some ⟨.error "Failed to get a valid response from Perplexity API after multiple attempts",
            3, [2, 4, 8]⟩ ∧
    (∀ fuel, (PerpPy.query2Go (fun _ => UpResp.bad 429) fuel 0).1 = none) := by
  refine ⟨?_, ?_, ?_⟩
  · obtain ⟨t, ht, hb⟩ := query1Go_bound resp hgood 3 0 0 [] (by omega)
    exact ⟨t, ht, by simpa using hb⟩
  · rfl
  · intro fuel
    rw [query2Go_429_diverges fuel 0]

/-- C5 witness: the bound applied to the persistently-rate-limited
upstream (whose responses are all 429, satisfying the status-code side
condition). -/
theorem C5_retry_behavior_witness :
    ∃ t, EvalPy.query_perplexity_api (fun _ => UpResp.bad 429) = some t ∧
      t.attempts ≤ 3 := by
  exact (C5_retry_behavior (fun _ => UpResp.bad 429)
    (fun n c h => Or.inl (by injection h with h2; exact h2.symm))).1

/-! ## Theorems for C6 (analysis-cache TTL) -/

/-- C6: for a well-formed `/analyze-compliance` request (all required
fields present and truthy), (a) a cache entry for the request's key that
is less than 3600 seconds old is returned as-is with status 200 without
invoking the Perplexity client and without touching the cache, and (b) a
first call on a cold cache stores its formatted response under the key,
and a second identical call within the TTL returns exactly the same
body, again without invoking the client. -/
theorem C6_cache_ttl (oracle : PyVal → PyVal → PyVal → Option PyVal)
    (cache : AppPy.Cache) (t1 t2 : Int)
    (dl pl : List (String × PyVal)) (ak jur cn ind : PyVal) (key : String)
    (hak : lookupAssoc dl "apiKey" = some ak)
    (hpf : lookupAssoc dl "companyProfile" = some (PyVal.dict pl))
    (hjur : lookupAssoc dl "jurisdiction" = some jur)
    (hakt : pyFalsy ak = false)
    (hpft : pyFalsy (PyVal.dict pl) = false)
    (hjurt : pyFalsy jur = false)
    (hcn : (lookupAssoc pl "companyName").getD (PyVal.str "") = cn)
    (hind : (lookupAssoc pl "industry").getD (PyVal.str "") = ind)
    (hkey : key = pyStrPy jur ++ "_" ++ pyStrPy cn ++ "_" ++ pyStrPy ind) :
    (∀ ts dat, AppPy.cacheLookup cache key = some (ts, dat) → t1 - ts < 3600 →
      AppPy.analyze_compliance oracle cache t1 (PyVal.dict dl) =
        ⟨200, .report dat, cache, false⟩) ∧
    (∀ cd, AppPy.cacheLookup cache key = none →
      oracle ak (PyVal.dict pl) jur = some cd → pyFalsy cd = false →
      t2 - t1 < 3600 →
      AppPy.analyze_compliance oracle cache t1 (PyVal.dict dl) =
        ⟨200, .report (AppPy.format_compliance_response cd jur),
         (key, (t1, AppPy.format_compliance_response cd jur)) :: cache, true⟩ ∧
      AppPy.analyze_compliance oracle
          ((key, (t1, AppPy.format_compliance_response cd jur)) :: cache) t2
          (PyVal.dict dl) =
        ⟨200, .report (AppPy.format_compliance_response cd jur),
         (key, (t1, AppPy.format_compliance_response cd jur)) :: cache, false⟩) := by
  have hdf : pyFalsy (PyVal.dict dl) = false := by
    have hne := lookupAssoc_ne_nil hak
    cases dl with
    | nil => exact absurd rfl hne
    | cons a r => rfl
  subst hkey
  subst hcn
  subst hind
  constructor
  · intro ts dat hlook hfresh
    have hbody : AppPy.analyzeBody oracle cache t1 (PyVal.dict dl) =
        .ok ⟨200, .report dat, cache, false⟩ := by
      simp only [AppPy.analyzeBody, hdf, Bool.false_eq_true, if_false,
        AppPy.pyGetAttr, AppPy.pyGetAttrD, hak, hpf, hjur, Option.getD_some,
        hakt, hpft, hjurt, Bool.or_self, Bool.or_false, Bool.false_or,
        hlook, hfresh, if_true]
    unfold AppPy.analyze_compliance
    rw [hbody]
  · intro cd hlook horacle hcdf hfresh
    have hbody1 : AppPy.analyzeBody oracle cache t1 (PyVal.dict dl) =
        .ok ⟨200, .report (AppPy.format_compliance_response cd jur),
             (pyStrPy jur ++ "_" ++ pyStrPy ((lookupAssoc pl "companyName").getD (PyVal.str ""))
               ++ "_" ++ pyStrPy ((lookupAssoc pl "industry").getD (PyVal.str "")),
              (t1, AppPy.format_compliance_response cd jur)) :: cache, true⟩ := by
      simp only [AppPy.analyzeBody, hdf, Bool.false_eq_true, if_false,
        AppPy.pyGetAttr, AppPy.pyGetAttrD, hak, hpf, hjur, Option.getD_some,
        hakt, hpft, hjurt, Bool.or_self, Bool.or_false, Bool.false_or, hlook,
        AppPy.analyzeMiss, horacle, hcdf]
    have hlook2 : AppPy.cacheLookup
        ((pyStrPy jur ++ "_" ++ pyStrPy ((lookupAssoc pl "companyName").getD (PyVal.str ""))
            ++ "_" ++ pyStrPy ((lookupAssoc pl "industry").getD (PyVal.str "")),
          (t1, AppPy.format_compliance_response cd jur)) :: cache)
        (pyStrPy jur ++ "_" ++ pyStrPy ((lookupAssoc pl "companyName").getD (PyVal.str ""))
          ++ "_" ++ pyStrPy ((lookupAssoc pl "industry").getD (PyVal.str ""))) =
        some (t1, AppPy.format_compliance_response cd jur) := by
      simp [AppPy.cacheLookup]
    have hbody2 : AppPy.analyzeBody oracle
        ((pyStrPy jur ++ "_" ++ pyStrPy ((lookupAssoc pl "companyName").getD (PyVal.str ""))
            ++ "_" ++ pyStrPy ((lookupAssoc pl "industry").getD (PyVal.str "")),
          (t1, AppPy.format_compliance_response cd jur)) :: cache) t2 (PyVal.dict dl) =
        .ok ⟨200, .report (AppPy.format_compliance_response cd jur),
             (pyStrPy jur ++ "_" ++ pyStrPy ((lookupAssoc pl "companyName").getD (PyVal.str ""))
               ++ "_" ++ pyStrPy ((lookupAssoc pl "industry").getD (PyVal.str "")),
              (t1, AppPy.format_compliance_response cd jur)) :: cache, false⟩ := by
      simp only [AppPy.analyzeBody, hdf, Bool.false_eq_true, if_false,
        AppPy.pyGetAttr, AppPy.pyGetAttrD, hak, hpf, hjur, Option.getD_some,
        hakt, hpft, hjurt, Bool.or_self, Bool.or_false, Bool.false_or,
        hlook2, hfresh, if_true]
    constructor
    · unfold AppPy.analyze_compliance
      rw [hbody1]
    · unfold AppPy.analyze_compliance
      rw [hbody2]

/-- C6 witness: a concrete cold-cache call followed by a call 100
seconds later returns the identical body without a second Perplexity
invocation. -/
theorem C6_cache_ttl_witness :
    AppPy.analyze_compliance
        (fun _ _ _ => some (PyVal.dict [("requirementsList", PyVal.list [])]))
        [] 100
        (PyVal.dict [("apiKey", PyVal.str "k"),
          ("companyProfile", PyVal.dict [("companyName", PyVal.str "Acme"),
                                         ("industry", PyVal.str "Fin")]),
          ("jurisdiction", PyVal.str "us")]) =
      ⟨200, .report (AppPy.format_compliance_response
              (PyVal.dict [("requirementsList", PyVal.list [])]) (PyVal.str "us")),
       [(pyStrPy (PyVal.str "us") ++ "_" ++ pyStrPy (PyVal.str "Acme")
           ++ "_" ++ pyStrPy (PyVal.str "Fin"),
         (100, AppPy.format_compliance_response
                 (PyVal.dict [("requirementsList", PyVal.list [])]) (PyVal.str "us")))],
       true⟩ ∧
    AppPy.analyze_compliance
        (fun _ _ _ => some (PyVal.dict [("requirementsList", PyVal.list [])]))
        [(pyStrPy (PyVal.str "us") ++ "_" ++ pyStrPy (PyVal.str "Acme")
            ++ "_" ++ pyStrPy (PyVal.str "Fin"),
          (100, AppPy.format_compliance_response
                  (PyVal.dict [("requirementsList", PyVal.list [])]) (PyVal.str "us")))]
        200
        (PyVal.dict [("apiKey", PyVal.str "k"),
          ("companyProfile", PyVal.dict [("companyName", PyVal.str "Acme"),
                                         ("industry", PyVal.str "Fin")]),
          ("jurisdiction", PyVal.str "us")]) =
      ⟨200, .report (AppPy.format_compliance_response
              (PyVal.dict [("requirementsList", PyVal.list [])]) (PyVal.str "us")),
       [(pyStrPy (PyVal.str "us") ++ "_" ++ pyStrPy (PyVal.str "Acme")
           ++ "_" ++ pyStrPy (PyVal.str "Fin"),
         (100, AppPy.format_compliance_response
                 (PyVal.dict [("requirementsList", PyVal.list [])]) (PyVal.str "us")))],
       false⟩ := by
  exact (C6_cache_ttl
      (fun _ _ _ => some (PyVal.dict [("requirementsList", PyVal.list [])]))
      [] 100 200
      [("apiKey", PyVal.str "k"),
       ("companyProfile", PyVal.dict [("companyName", PyVal.str "Acme"),
                                      ("industry", PyVal.str "Fin")]),
       ("jurisdiction", PyVal.str "us")]
      [("companyName", PyVal.str "Acme"), ("industry", PyVal.str "Fin")]
      (PyVal.str "k") (PyVal.str "us") (PyVal.str "Acme") (PyVal.str "Fin")
      (pyStrPy (PyVal.str "us") ++ "_" ++ pyStrPy (PyVal.str "Acme")
        ++ "_" ++ pyStrPy (PyVal.str "Fin"))
      rfl rfl rfl rfl rfl rfl rfl rfl rfl).2
    (PyVal.dict [("requirementsList", PyVal.list [])])
    rfl rfl rfl (by decide)

/-! ## Theorem for C8 (document-processing error handling) -/

/-- C8 failing input: when the first document object is not a dict, the
per-document `except` handler references the never-assigned local
`file_name` and `analyze_documents` raises instead of skipping the
document; by contrast, a document whose content is a string that fails
base64 decoding is included as raw text, as the claim says. -/
theorem C8_unbound_local_bug :
    EvalPy.analyze_documents (fun _ => "") (fun _ => none) (fun _ => none) false
        (fun _ => none) [PyVal.int 7] =
      Except.error
        "UnboundLocalError: local variable file_name referenced before assignment" ∧
    EvalPy.analyze_documents (fun _ => "") (fun _ => none) (fun _ => none) false
        (fun _ => none)
        [PyVal.dict [("file_name", PyVal.str "notes.txt"),
                     ("content", PyVal.str "this is not base64")]] =
      Except.ok "\n\n--- Document: notes.txt ---\n\nthis is not base64" := by
  constructor
  · rfl
  · rfl

/-! ## Theorems for C9 (CSV round-trip) -/

theorem mkData (s : String) : String.mk s.data = s := rfl

theorem csvGo_plain_run (cs : List Char)
    (h : ∀ c ∈ cs, (c == '"') = false ∧ (c == ',') = false ∧
      (c == '\r') = false ∧ (c == '\n') = false) :
    ∀ (rest field : List Char) (rec : List String) (saw : Bool),
    AppPy.csvGo (cs ++ rest) .unq field rec saw =
      AppPy.csvGo rest .unq (field ++ cs) rec (saw || !cs.isEmpty) := by
  induction cs with
  | nil => intro rest field rec saw; simp
  | cons c cs ih =>
    intro rest field rec saw
    obtain ⟨h1, h2, h3, h4⟩ := h c (List.mem_cons_self c cs)
    show AppPy.csvGo (c :: (cs ++ rest)) .unq field rec saw = _
    simp only [AppPy.csvGo, h1, h2, h3, h4, Bool.false_eq_true, if_false]
    rw [ih (fun x hx => h x (List.mem_cons_of_mem _ hx)) rest (field ++ [c]) rec true]
    simp [List.append_assoc]

theorem csvGo_quoted_run (g : List Char) :
    ∀ (rest field : List Char) (rec : List String) (saw : Bool),
    AppPy.csvGo (AppPy.escQuotes g ++ ('"' :: rest)) .inq field rec saw =
      AppPy.csvGo rest .postq (field ++ g) rec saw := by
  induction g with
  | nil =>
    intro rest field rec saw
    show AppPy.csvGo ('"' :: rest) .inq field rec saw = _
    simp [AppPy.csvGo]
  | cons c g ih =>
    intro rest field rec saw
    by_cases hc : c = '"'
    · subst hc
      show AppPy.csvGo
          ('"' :: ('"' :: (AppPy.escQuotes g ++ ('"' :: rest)))) .inq field rec saw = _
      simp only [AppPy.csvGo, beq_self_eq_true, if_true]
      rw [ih rest (field ++ ['"']) rec saw]
      simp [List.append_assoc]
    · have hcb : (c == '"') = false := by simp [hc]
      have hne2 : ¬ ((c == '"') = true) := by simp [hc]
      have hesc : AppPy.escQuotes (c :: g) = c :: AppPy.escQuotes g := by
        conv_lhs => unfold AppPy.escQuotes
        exact if_neg hne2
      rw [hesc]
      show AppPy.csvGo (c :: (AppPy.escQuotes g ++ ('"' :: rest))) .inq field rec saw = _
      simp only [AppPy.csvGo, hcb, Bool.false_eq_true, if_false]
      rw [ih rest (field ++ [c]) rec saw]
      simp [List.append_assoc]

theorem needsQuote_chars {f : List Char} (hq : AppPy.needsQuote f = false) :
    ∀ c ∈ f, (c == '"') = false ∧ (c == ',') = false ∧
      (c == '\r') = false ∧ (c == '\n') = false := by
  intro c hc
  unfold AppPy.needsQuote at hq
  rw [List.any_eq_false] at hq
  have h2 := hq c hc
  simp only [Bool.or_eq_true, not_or, Bool.not_eq_true] at h2
  exact ⟨h2.1.1.2, h2.1.1.1, h2.1.2, h2.2⟩

theorem needsQuote_ne_nil {f : List Char} (hq : AppPy.needsQuote f = true) :
    f ≠ [] := by
  intro hnil
  subst hnil
  simp [AppPy.needsQuote] at hq

theorem csvGo_field (f : String) (rest : List Char) (rec : List String) (saw : Bool) :
    AppPy.csvGo (AppPy.encodeField f ++ rest) .unq [] rec saw =
      (if AppPy.needsQuote f.data then AppPy.csvGo rest .postq f.data rec true
       else AppPy.csvGo rest .unq f.data rec (saw || !f.data.isEmpty)) := by
  by_cases hq : AppPy.needsQuote f.data = true
  · rw [if_pos hq]
    have henc : AppPy.encodeField f = '"' :: (AppPy.escQuotes f.data ++ ['"']) := by
      unfold AppPy.encodeField
      rw [if_pos hq]
    rw [henc]
    show AppPy.csvGo ('"' :: ((AppPy.escQuotes f.data ++ ['"']) ++ rest)) .unq [] rec saw = _
    simp only [AppPy.csvGo, beq_self_eq_true, if_true]
    rw [List.append_assoc]
    show AppPy.csvGo (AppPy.escQuotes f.data ++ ('"' :: rest)) .inq [] rec true = _
    rw [csvGo_quoted_run f.data rest [] rec true]
    simp
  · have hq2 : AppPy.needsQuote f.data = false := by
      cases h : AppPy.needsQuote f.data
      · rfl
      · exact absurd h hq
    rw [if_neg hq]
    have henc : AppPy.encodeField f = f.data := by
      unfold AppPy.encodeField
      rw [hq2]
      simp
    rw [henc]
    rw [csvGo_plain_run f.data (needsQuote_chars hq2) rest [] rec saw]
    simp

theorem csvGo_row (fs : List String) :
    ∀ (rest : List Char) (rec : List String) (saw : Bool), fs ≠ [] →
    (saw = true ∨ fs ≠ [""]) →
    AppPy.csvGo (AppPy.encRow fs ++ rest) .unq [] rec saw =
      (rec ++ fs) :: AppPy.csvGo rest .unq [] [] false := by
  induction fs with
  | nil => intro _ _ _ h _; exact absurd rfl h
  | cons f fs ih =>
    intro rest rec saw hne hsaw
    cases fs with
    | nil =>
      have henc : AppPy.encRow [f] ++ rest =
          AppPy.encodeField f ++ ('\r' :: '\n' :: rest) := by
        show (AppPy.encodeField f ++ ['\r', '\n']) ++ rest = _
        rw [List.append_assoc]
        rfl
      rw [henc, csvGo_field f ('\r' :: '\n' :: rest) rec saw]
      have hr1 : (('\r' : Char) == '"') = false := by decide
      have hr2 : (('\r' : Char) == ',') = false := by decide
      have hr3 : (('\r' : Char) == '\r') = true := by decide
      have hn1 : (('\n' : Char) == '\n') = true := by decide
      by_cases hq : AppPy.needsQuote f.data = true
      · rw [if_pos hq]
        simp only [AppPy.csvGo, hr1, hr2, hr3, hn1, Bool.false_eq_true, if_false,
          if_true, mkData]
      · have hq2 : AppPy.needsQuote f.data = false := by
          cases h : AppPy.needsQuote f.data
          · rfl
          · exact absurd h hq
        rw [if_neg hq]
        have hsaw2 : (saw || !f.data.isEmpty) = true := by
          rcases hsaw with h | h
          · rw [h]; rfl
          · have hf : f ≠ "" := by
              intro hf
              exact h (by rw [hf])
            have hfd : f.data ≠ [] := by
              intro hd
              exact hf (by
                have := congrArg String.mk hd
                simpa [mkData] using this)
            cases hd : f.data with
            | nil => exact absurd hd hfd
            | cons a l => simp
        simp only [AppPy.csvGo, hr1, hr2, hr3, hn1, Bool.false_eq_true, if_false,
          if_true, hsaw2, mkData]
    | cons f2 fs2 =>
      have henc : AppPy.encRow (f :: f2 :: fs2) ++ rest =
          AppPy.encodeField f ++ (',' :: (AppPy.encRow (f2 :: fs2) ++ rest)) := by
        show (AppPy.encodeField f ++ (',' :: AppPy.encRow (f2 :: fs2))) ++ rest = _
        rw [List.append_assoc]
        rfl
      rw [henc, csvGo_field f (',' :: (AppPy.encRow (f2 :: fs2) ++ rest)) rec saw]
      have hc1 : ((',' : Char) == '"') = false := by decide
      have hc2 : ((',' : Char) == ',') = true := by decide
      have hrec : AppPy.csvGo (AppPy.encRow (f2 :: fs2) ++ rest) .unq []
          (rec ++ [f]) true = ((rec ++ [f]) ++ (f2 :: fs2)) ::
            AppPy.csvGo rest .unq [] [] false :=
        ih rest (rec ++ [f]) true (by simp) (Or.inl rfl)
      by_cases hq : AppPy.needsQuote f.data = true
      · rw [if_pos hq]
        simp only [AppPy.csvGo, hc1, hc2, Bool.false_eq_true, if_false, if_true, mkData]
        rw [hrec]
        simp
      · rw [if_neg hq]
        simp only [AppPy.csvGo, hc1, hc2, Bool.false_eq_true, if_false, if_true, mkData]
        rw [hrec]
        simp

/-- Round trip: parsing the writer's output recovers the rows, provided
no row is the single-empty-field row `[""]` (which QUOTE_MINIMAL writes
as a blank line, the one ambiguity of the format — `generate_csv_report`
never writes such a row). -/
theorem parse_encodeCsv (rows : List (List String)) (h : ∀ r ∈ rows, r ≠ [""]) :
    AppPy.csvGo (AppPy.encodeCsv rows) .unq [] [] false = rows := by
  induction rows with
  | nil => rfl
  | cons r rows ih =>
    have hstep : AppPy.encodeCsv (r :: rows) = AppPy.encRow r ++ AppPy.encodeCsv rows :=
      rfl
    rw [hstep]
    have ih2 := ih (fun x hx => h x (List.mem_cons_of_mem _ hx))
    cases r with
    | nil =>
      show AppPy.csvGo ('\r' :: '\n' :: AppPy.encodeCsv rows) .unq [] [] false =
        [] :: rows
      have hr1 : (('\r' : Char) == '"') = false := by decide
      have hr2 : (('\r' : Char) == ',') = false := by decide
      have hr3 : (('\r' : Char) == '\r') = true := by decide
      have hn1 : (('\n' : Char) == '\n') = true := by decide
      simp only [AppPy.csvGo, hr1, hr2, hr3, hn1, Bool.false_eq_true, if_false, if_true]
      rw [ih2]
    | cons f fs =>
      rw [csvGo_row (f :: fs) (AppPy.encodeCsv rows) [] false (by simp)
        (Or.inr (h (f :: fs) (List.mem_cons_self _ _)))]
      rw [ih2]
      simp

theorem optMapM_mem {α β : Type} {f : α → Option β} :
    ∀ {xs : List α} {ys : List β}, AppPy.optMapM f xs = some ys →
    ∀ y ∈ ys, ∃ x ∈ xs, f x = some y := by
  intro xs
  induction xs with
  | nil =>
    intro ys h y hy
    have h2 : some ([] : List β) = some ys := h
    injection h2 with h2
    subst h2
    cases hy
  | cons a l ih =>
    intro ys h y hy
    simp only [AppPy.optMapM] at h
    cases hfa : f a with
    | none =>
      rw [hfa] at h
      exact Option.noConfusion h
    | some b =>
      rw [hfa] at h
      cases hrec : AppPy.optMapM f l with
      | none =>
        rw [hrec] at h
        exact Option.noConfusion h
      | some bs =>
        rw [hrec] at h
        have h2 : some (b :: bs) = some ys := h
        injection h2 with h2
        subst h2
        rcases List.mem_cons.mp hy with hb | hb
        · exact ⟨a, List.mem_cons_self a l, hb ▸ hfa⟩
        · obtain ⟨x, hx1, hx2⟩ := ih hrec y hb
          exact ⟨x, List.mem_cons_of_mem a hx1, hx2⟩

theorem optMapM_get {α β : Type} {f : α → Option β} :
    ∀ {xs : List α} {ys : List β} {i : Nat} {x : α},
    AppPy.optMapM f xs = some ys → xs.get? i = some x →
    ∃ y, ys.get? i = some y ∧ f x = some y := by
  intro xs
  induction xs with
  | nil => intro ys i x _ hx; simp at hx
  | cons a l ih =>
    intro ys i x h hx
    simp only [AppPy.optMapM] at h
    cases hfa : f a with
    | none =>
      rw [hfa] at h
      exact Option.noConfusion h
    | some b =>
      rw [hfa] at h
      cases hrec : AppPy.optMapM f l with
      | none =>
        rw [hrec] at h
        exact Option.noConfusion h
      | some bs =>
        rw [hrec] at h
        have h2 : some (b :: bs) = some ys := h
        injection h2 with h2
        subst h2
        cases i with
        | zero =>
          have hx2 : some a = some x := hx
          injection hx2 with hx2
          subst hx2
          exact ⟨b, rfl, hfa⟩
        | succ n =>
          have hx2 : l.get? n = some x := hx
          obtain ⟨y, hy1, hy2⟩ := ih hrec hx2
          exact ⟨y, hy1, hy2⟩

theorem reqRow_length {req : PyVal} {r : List String}
    (h : AppPy.reqRow req = some r) : r.length = 7 := by
  cases req <;> simp only [AppPy.reqRow] at h <;> try exact Option.noConfusion h
  injection h with h
  subst h
  rfl

theorem fixedRows_ne {l : List (String × PyVal)} {now : String} {totV metV : PyVal}
    {r : List String} (hr : r ∈ AppPy.fixedRows l now totV metV) : r ≠ [""] := by
  simp only [AppPy.fixedRows, List.mem_cons, List.not_mem_nil, or_false] at hr
  rcases hr with h|h|h|h|h|h|h|h|h|h|h|h <;> subst h <;> simp

/-- C9: generate_csv_report followed by a standard CSV parse recovers each
requirement description verbatim, even when the description contains
double quotes, commas or newlines: the requirement at index i of the
requirementsList appears as parsed row 12 + i (after the twelve fixed
header/summary rows) and its column 5 is exactly the original
description string. -/
theorem C9_csv_description_roundtrip (l : List (String × PyVal)) (now csv : String)
    (reqs : List PyVal) (i : Nat) (rl : List (String × PyVal)) (d : String)
    (hreqs : lookupAssoc l "requirementsList" = some (PyVal.list reqs))
    (hi : reqs.get? i = some (PyVal.dict rl))
    (hd : lookupAssoc rl "description" = some (PyVal.str d))
    (hgen : AppPy.generate_csv_report (PyVal.dict l) now = some csv) :
    ∃ row, (AppPy.parseCsv csv).get? (12 + i) = some row ∧ row.get? 5 = some d := by
  unfold AppPy.generate_csv_report at hgen
  cases hb : AppPy.buildRows (PyVal.dict l) now with
  | none =>
    rw [hb] at hgen
    exact Option.noConfusion hgen
  | some rows =>
    rw [hb] at hgen
    have hcsv : csv = String.mk (AppPy.encodeCsv rows) := by
      have h2 : some (String.mk (AppPy.encodeCsv rows)) = some csv := hgen
      injection h2 with h2
      exact h2.symm
    simp only [AppPy.buildRows] at hb
    rw [hreqs] at hb
    simp only [Option.getD_some, pyElems] at hb
    cases hs : AppPy.reqSummaryVals l with
    | none =>
      rw [hs] at hb
      exact Option.noConfusion hb
    | some tv =>
      obtain ⟨totV, metV⟩ := tv
      rw [hs] at hb
      cases hm : AppPy.optMapM AppPy.reqRow reqs with
      | none =>
        have hb2 : (match AppPy.optMapM AppPy.reqRow reqs with
            | some reqRows => some (AppPy.fixedRows l now totV metV ++ reqRows)
            | none => (none : Option (List (List String)))) = some rows := hb
        rw [hm] at hb2
        exact Option.noConfusion hb2
      | some rrows =>
        have hb2 : (match AppPy.optMapM AppPy.reqRow reqs with
            | some reqRows => some (AppPy.fixedRows l now totV metV ++ reqRows)
            | none => (none : Option (List (List String)))) = some rows := hb
        rw [hm] at hb2
        have hb3 : some (AppPy.fixedRows l now totV metV ++ rrows) = some rows := hb2
        injection hb3 with hb3
        obtain ⟨row, hrowi, hfrow⟩ := optMapM_get hm hi
        refine ⟨row, ?_, ?_⟩
        · rw [hcsv]
          have hne : ∀ r ∈ rows, r ≠ [""] := by
            intro r hr
            rw [← hb3] at hr
            rcases List.mem_append.mp hr with hf | hq
            · exact fixedRows_ne hf
            · obtain ⟨x, _, hx⟩ := optMapM_mem hm r hq
              have hlen := reqRow_length hx
              intro he
              rw [he] at hlen
              simp at hlen
          show (AppPy.csvGo (AppPy.encodeCsv rows) .unq [] [] false).get? (12 + i) =
            some row
          rw [parse_encodeCsv rows hne, ← hb3]
          have hl12 : (AppPy.fixedRows l now totV metV).length = 12 := rfl
          rw [List.get?_append_right (by rw [hl12]; omega)]
          rw [hl12]
          have harith : 12 + i - 12 = i := by omega
          rw [harith]
          exact hrowi
        · simp only [AppPy.reqRow] at hfrow
          injection hfrow with hfrow
          subst hfrow
          show some (AppPy.csvField ((lookupAssoc rl "description").getD
            (PyVal.str ""))) = some d
          rw [hd]
          rfl

set_option maxRecDepth 4000 in
theorem C9_csv_description_roundtrip_witness :
    ∃ row, (AppPy.parseCsv
      "Jurisdiction,Unknown\x0d\nGenerated,2024-01-01\x0d\nCompliance Score,0%\x0d\nRisk Level,Unknown\x0d\nStatus,Unknown\x0d\n\x0d\nREQUIREMENTS SUMMARY\x0d\nTotal Requirements,0\x0d\nRequirements Met,0\x0d\n\x0d\nDETAILED REQUIREMENTS\x0d\nID,Title,Category,Status,Risk,Description,Recommendation\x0d\n,,,,,\"say \"\"hi\"\" now\",\x0d\n").get? (12 + 0) =
      some row ∧ row.get? 5 = some "say \"hi\" now" :=
  C9_csv_description_roundtrip
    [("requirementsList", PyVal.list [PyVal.dict [("description", PyVal.str "say \"hi\" now")]])]
    "2024-01-01"
    "Jurisdiction,Unknown\x0d\nGenerated,2024-01-01\x0d\nCompliance Score,0%\x0d\nRisk Level,Unknown\x0d\nStatus,Unknown\x0d\n\x0d\nREQUIREMENTS SUMMARY\x0d\nTotal Requirements,0\x0d\nRequirements Met,0\x0d\n\x0d\nDETAILED REQUIREMENTS\x0d\nID,Title,Category,Status,Risk,Description,Recommendation\x0d\n,,,,,\"say \"\"hi\"\" now\",\x0d\n"
    [PyVal.dict [("description", PyVal.str "say \"hi\" now")]]
    0
    [("description", PyVal.str "say \"hi\" now")]
    "say \"hi\" now"
    rfl rfl rfl rfl

end ComplianceSync
